import Mathlib

/-!
# SRSFMockSceneFlowAlgorithm: replaying scene flow records from XML files

A shallow embedding of `src/SceneFlowAlgorithm/SRSFMockSceneFlowAlgorithm.cpp` and
the properties of its reader that are proved or refuted on it.

Conventions of the embedding.

* A value of type `Option α` returned by an operation is `none` when the C++
  code has undefined behaviour on that path (a null pointer is dereferenced, an
  array is indexed out of bounds, `atoi` overflows) and `some a` when it returns.
* `float` values are kept abstract: the type `F` of floats and the text to float
  conversion of the C library are the fields of a `FloatModel`.
* A cell of a float array or vector is an `Option F`; `none` is the
  indeterminate value of storage that was never written.
* Pointers that may be null are `Option`s; `none` is `nullptr`.
* The stream extraction `iss >> x` follows the C++ standard library in the
  classic locale; the document is what the TinyXML calls of the code return.
* `read_scene_flow` is the sequence of its blocks, each guarded by `read_ok` as
  in the source, over a record of its parameters and local variables.
* Console output is not part of the embedding, except for the diagnostics of
  `read_floats_from_string`, which are returned as a list.
* The constructor is embedded over `FileUtilities`, the part of the file system
  that `file_exists` and `files_in_directory` look at; these two helpers are
  not in the source at hand. The regular expression of the filter is embedded
  as it parses, and `std::sort` as the sorted arrangement of the names.
-/

namespace SRSFMock

/-! ## Formatted input of floats from a `std::istringstream` -/

/-- White space of the classic C locale: space, `\t`, `\n`, `\v`, `\f`, `\r`. -/
def isspace (c : Char) : Bool :=
  c == ' ' || (9 ≤ c.toNat && c.toNat ≤ 13)

/-- The C library side of float input: `strtof` gives the float denoted by an
accumulated field, or `none` when the field is no number or is out of
range; `onFail` is the value stored in that case (zero, or the largest
magnitude on overflow). -/
structure FloatModel (F : Type) where
  strtof : List Char → Option F
  onFail : List Char → F

/-- A `std::istringstream`: the characters not yet consumed and the two state
bits the code can observe through `good()`. -/
structure IStringStream where
  buf : List Char
  eofbit : Bool
  failbit : Bool
deriving DecidableEq, Repr

/-- The stream right after `std::istringstream iss( string )`. -/
def IStringStream.open (string : String) : IStringStream :=
  { buf := string.toList, eofbit := false, failbit := false }

/-- The C++ `iss.good()`: no state bit is set. -/
def IStringStream.good (s : IStringStream) : Bool :=
  !s.eofbit && !s.failbit

/-- Where the scan of a floating point field stands: whether a sign may come
next, and which parts of the number were already seen. -/
structure FieldState where
  sign_ok : Bool
  found_mantissa : Bool
  found_dec : Bool
  found_sci : Bool
deriving DecidableEq, Repr

/-- The scan state at the first character of a field. -/
def FieldState.start : FieldState :=
  { sign_ok := true, found_mantissa := false, found_dec := false, found_sci := false }

/-- One step of the accumulation stage of `num_get`: is `c` allowed as the next
character of a floating point field, and the state after it. -/
def acceptChar (st : FieldState) (c : Char) : Option FieldState :=
  if c.isDigit then
    some { st with sign_ok := false, found_mantissa := true }
  else if (c == '+' || c == '-') && st.sign_ok then
    some { st with sign_ok := false }
  else if c == '.' && !st.found_dec && !st.found_sci then
    some { st with sign_ok := false, found_dec := true }
  else if (c == 'e' || c == 'E') && !st.found_sci && st.found_mantissa then
    some { st with sign_ok := true, found_sci := true }
  else
    none

/-- The accumulation stage of `num_get`: the longest run of characters allowed
in a floating point field, and the characters left in the stream. -/
def scanField : FieldState → List Char → List Char × List Char
  | _, [] => ([], [])
  | st, c :: cs =>
    match acceptChar st c with
    | some st' => (c :: (scanField st' cs).1, (scanField st' cs).2)
    | none => ([], c :: cs)

/-- The C++ `iss >> x` for a `float x`: the stream after the extraction and the
value stored into `x`, `none` when nothing is stored. The sentry skips white
space and sets `eofbit` and `failbit` when it runs into the end; otherwise a
field is accumulated (`eofbit` is set when the scan reaches the end of the
string) and converted (`failbit` is set when the conversion fails). -/
def extractFloat {F : Type} (M : FloatModel F) (s : IStringStream) :
    IStringStream × Option F :=
  if !s.good then ({ s with failbit := true }, none)
  else
    match s.buf.dropWhile isspace with
    | [] => ({ buf := [], eofbit := true, failbit := true }, none)
    | c :: cs =>
      let r := scanField FieldState.start (c :: cs)
      match M.strtof r.1 with
      | some v => ({ buf := r.2, eofbit := r.2.isEmpty, failbit := false }, some v)
      | none => ({ buf := r.2, eofbit := r.2.isEmpty, failbit := true }, some (M.onFail r.1))

/-! ## `read_floats_from_string` -/

/-- A float array: `none` is a cell that was never written. -/
abbrev FloatBuffer (F : Type) := List (Option F)

/-- The messages `read_floats_from_string` writes to `std::cerr`. -/
inductive Diagnostic where
  /-- The text "Warning: read_values is null in read_floats_from_string. ...". -/
  | nullReadValues
  /-- The text "Warning: num_floats is 0 in read_floats_from_string. ...". -/
  | zeroNumFloats
  /-- The text "Not enough float entries in string. Expected e, read r". -/
  | notEnough (expected read : Nat)
  /-- The text "String is null in readFloatsFromString". -/
  | nullString
deriving DecidableEq, Repr

/-- What a call of `read_floats_from_string` leaves behind: the returned flag,
the array behind `read_values`, and the diagnostics written. -/
structure FloatsResult (F : Type) where
  read_ok : Bool
  read_values : Option (FloatBuffer F)
  log : List Diagnostic
deriving DecidableEq

/-- The loop `for ( size_t i = 0; i < num_floats; i++ )` of
`read_floats_from_string`, with `k = num_floats - i` iterations to go. -/
def read_floats_loop {F : Type} (M : FloatModel F) (num_floats : Nat) :
    Nat → Nat → IStringStream → Option (FloatBuffer F) → Option (FloatsResult F)
  | 0, _, _, read_values => some { read_ok := true, read_values := read_values, log := [] }
  | k + 1, i, iss, read_values =>
    if iss.good then
      match read_values with
      | none => none
      | some values =>
        if i < values.length then
          match extractFloat M iss with
          | (iss', some v) => read_floats_loop M num_floats k (i + 1) iss' (some (values.set i (some v)))
          | (iss', none) => read_floats_loop M num_floats k (i + 1) iss' (some values)
        else none
    else
      some { read_ok := false, read_values := read_values,
             log := [Diagnostic.notEnough num_floats (i + 1)] }

/-- The C++ `read_floats_from_string( string, num_floats, read_values )`. -/
def read_floats_from_string {F : Type} (M : FloatModel F) (string : Option String)
    (num_floats : Nat) (read_values : Option (FloatBuffer F)) : Option (FloatsResult F) :=
  let warning := if read_values.isNone then [Diagnostic.nullReadValues] else []
  if num_floats = 0 then
    some { read_ok := true, read_values := read_values,
           log := warning ++ [Diagnostic.zeroNumFloats] }
  else
    match string with
    | some s =>
      (read_floats_loop M num_floats num_floats 0 (IStringStream.open s) read_values).map
        (fun r => { r with log := warning ++ r.log })
    | none =>
      some { read_ok := false, read_values := read_values,
             log := warning ++ [Diagnostic.nullString] }

/-! ## The parsed document, as seen through the TinyXML calls of the code -/

/-- A node of a parsed document: a text node, an element with its children, or a
node of another kind (comment, declaration, unknown). `value` is what
`Value()` returns: the text, the tag, or the content. -/
inductive TiXmlNode where
  | text (value : String)
  | element (value : String) (children : List TiXmlNode)
  | other (value : String)

/-- The C++ `node->Value()`. -/
def TiXmlNode.Value : TiXmlNode → String
  | .text v => v
  | .element v _ => v
  | .other v => v

/-- The children of a node; only elements have any. -/
def TiXmlNode.children : TiXmlNode → List TiXmlNode
  | .element _ cs => cs
  | _ => []

/-- The C++ `node->ToElement() != nullptr`. -/
def TiXmlNode.isElement : TiXmlNode → Bool
  | .element _ _ => true
  | _ => false

/-- The C++ `node->FirstChild( name )`: the first child whose value is `name`. -/
def TiXmlNode.FirstChild (node : TiXmlNode) (name : String) : Option TiXmlNode :=
  node.children.find? (fun c => c.Value == name)

/-- The C++ `node->FirstChildElement( name )`: the first child that is an element
with tag `name`. -/
def TiXmlNode.FirstChildElement (node : TiXmlNode) (name : String) : Option TiXmlNode :=
  node.children.find? (fun c => c.isElement && c.Value == name)

/-- The C++ `element->GetText()`: the text of the first child when that child is
a text node, `nullptr` otherwise. -/
def TiXmlNode.GetText (node : TiXmlNode) : Option String :=
  match node.children with
  | .text v :: _ => some v
  | _ => none

/-- A loaded `TiXmlDocument`, with the result of `doc.RootElement()`. -/
structure TiXmlDocument where
  RootElement : Option TiXmlNode

/-- The chain `doc.RootElement()->FirstChild( node_name )->FirstChildElement( child )`
the code uses for every lookup. The outer `none` is the dereference of a null
root or of a null `FirstChild` result; the inner option is the pointer found. -/
def childElement (doc : TiXmlDocument) (node_name child : String) :
    Option (Option TiXmlNode) :=
  match doc.RootElement with
  | none => none
  | some root =>
    match root.FirstChild node_name with
    | none => none
    | some node => some (node.FirstChildElement child)

/-! ## `atoi` and 32 bit arithmetic -/

/-- The decimal digits at the head of a text, read onto an accumulator. -/
def atoiDigits : Nat → List Char → Nat
  | acc, [] => acc
  | acc, c :: cs => if c.isDigit then atoiDigits (acc * 10 + (c.toNat - 48)) cs else acc

/-- The C `atoi`: white space is skipped, then an optional sign and the leading
decimal digits are read; a text without leading digits gives 0. The behaviour
is undefined (`none`) when the value is not representable as an `int`. -/
def atoi (nptr : String) : Option Int :=
  let s := nptr.toList.dropWhile isspace
  let v : Int :=
    match s with
    | [] => 0
    | c :: cs =>
      if c == '-' then - (atoiDigits 0 cs : Int)
      else if c == '+' then (atoiDigits 0 cs : Int)
      else (atoiDigits 0 (c :: cs) : Int)
  if -2147483648 ≤ v ∧ v ≤ 2147483647 then some v else none

/-- The conversion of an `int` to `uint32_t`. -/
def toUInt32 (v : Int) : Nat :=
  (v % 4294967296).toNat

/-! ## `read_residuals_node` -/

/-- What a call of `read_residuals_node` leaves behind: the returned pointer and
the values of the reference parameters `width` and `height`. -/
structure ResidualsNode (F : Type) where
  values : Option (FloatBuffer F)
  width : Nat
  height : Nat
deriving DecidableEq

/-- The C++ `read_residuals_node( doc, node_name, width, height )`. The array of
`new float[ num_entries ]` starts with indeterminate cells; the product
`width * height` is taken in `uint32_t`. -/
def read_residuals_node {F : Type} (M : FloatModel F) (doc : TiXmlDocument)
    (node_name : Option String) (width height : Nat) : Option (ResidualsNode F) :=
  match node_name with
  | none => some { values := none, width := width, height := height }
  | some name => do
    let row_element ← childElement doc name "rows"
    let col_element ← childElement doc name "cols"
    let row_text ← (← row_element).GetText
    let width := toUInt32 (← atoi row_text)
    let col_text ← (← col_element).GetText
    let height := toUInt32 (← atoi col_text)
    let num_entries := (width * height) % 4294967296
    if num_entries ≠ 0 then
      let values : FloatBuffer F := List.replicate num_entries none
      match ← childElement doc name "data" with
      | some data_element =>
        let r ← read_floats_from_string M data_element.GetText num_entries (some values)
        pure { values := r.read_values, width := width, height := height }
      | none => pure { values := some values, width := width, height := height }
    else
      pure { values := none, width := width, height := height }

/-! ## `read_scene_flow` -/

/-- An `Eigen::Vector3f`. -/
structure Vector3f (F : Type) where
  c0 : Option F
  c1 : Option F
  c2 : Option F
deriving DecidableEq

/-- The three assignments `v[0] = a[0]; v[1] = a[1]; v[2] = a[2]` from a local
array `float a[3]`. -/
def Vector3f.ofArray {F : Type} (a : FloatBuffer F) : Vector3f F :=
  { c0 := a.getD 0 none, c1 := a.getD 1 none, c2 := a.getD 2 none }

/-- An `Eigen::Matrix<float, 3, Eigen::Dynamic>`, as the list of its columns. -/
abbrev ResidualMatrix (F : Type) := List (Vector3f F)

/-- The C++ `residuals.resize( 3, n )`: the matrix is kept when it has `n`
columns already, and is a fresh one with indeterminate cells otherwise. -/
def ResidualMatrix.resize {F : Type} (residuals : ResidualMatrix F) (n : Nat) :
    ResidualMatrix F :=
  if residuals.length = n then residuals
  else List.replicate n { c0 := none, c1 := none, c2 := none }

/-- An allocation or release of one of the residual arrays of `read_scene_flow`,
named by the local variable that holds it. -/
inductive HeapEvent where
  | alloc (array : String)
  | free (array : String)
deriving DecidableEq, Repr

/-- What a call of `read_scene_flow` leaves behind: the returned flag, the three
reference parameters, and the allocations and releases of residual arrays made
during the call, in order. -/
structure SceneFlowResult (F : Type) where
  read_ok : Bool
  translation : Vector3f F
  rotation : Vector3f F
  residuals : ResidualMatrix F
  heap : List HeapEvent
deriving DecidableEq

/-- The parameters and local variables of `read_scene_flow` while it runs: the
flag `read_ok`, the three reference parameters, `width` and `height`, the three
array pointers, and the allocations and releases made so far. -/
structure ReadLocals (F : Type) where
  read_ok : Bool
  translation : Vector3f F
  rotation : Vector3f F
  residuals : ResidualMatrix F
  width : Nat
  height : Nat
  residual_x : Option (FloatBuffer F)
  residual_y : Option (FloatBuffer F)
  residual_z : Option (FloatBuffer F)
  heap : List HeapEvent

/-- Lines 147 to 165 of the source: the block that gets the global translation. -/
def block_translation {F : Type} (M : FloatModel F) (doc : TiXmlDocument)
    (l : ReadLocals F) : Option (ReadLocals F) :=
  if l.read_ok then
    match childElement doc "Translation" "data" with
    | none => none
    | some none => some { l with read_ok := false }
    | some (some element) =>
      match read_floats_from_string M element.GetText 3 (some [none, none, none]) with
      | none => none
      | some t =>
        if t.read_ok then
          some { l with translation := Vector3f.ofArray (t.read_values.getD []) }
        else
          some { l with read_ok := false }
  else some l

/-- Lines 169 to 186 of the source: the block that gets the global rotation. -/
def block_rotation {F : Type} (M : FloatModel F) (doc : TiXmlDocument)
    (l : ReadLocals F) : Option (ReadLocals F) :=
  if l.read_ok then
    match childElement doc "Rotation" "data" with
    | none => none
    | some none => some { l with read_ok := false }
    | some (some element) =>
      match read_floats_from_string M element.GetText 3 (some [none, none, none]) with
      | none => none
      | some r =>
        if r.read_ok then
          some { l with rotation := Vector3f.ofArray (r.read_values.getD []) }
        else
          some { l with read_ok := false }
  else some l

/-- The allocation event of an array pointer returned by `read_residuals_node`:
none for a null pointer. -/
def allocated {F : Type} (values : Option (FloatBuffer F)) (array : String) :
    List HeapEvent :=
  if values.isSome then [HeapEvent.alloc array] else []

/-- Lines 190 to 197 of the source: the block that gets the X residuals. -/
def block_x {F : Type} (M : FloatModel F) (doc : TiXmlDocument)
    (l : ReadLocals F) : Option (ReadLocals F) :=
  if l.read_ok then
    match read_residuals_node M doc (some "SFx") l.width l.height with
    | none => none
    | some x =>
      if x.values.isNone then
        some { l with
          residual_x := x.values, width := x.width, height := x.height, read_ok := false,
          heap := l.heap ++ allocated x.values "residual_x" }
      else
        some { l with
          residual_x := x.values, width := x.width, height := x.height,
          heap := l.heap ++ allocated x.values "residual_x" }
  else some l

/-- Lines 200 to 209 of the source: the block that gets the Y residuals and
compares their dimensions with `width` and `height`. -/
def block_y {F : Type} (M : FloatModel F) (doc : TiXmlDocument)
    (l : ReadLocals F) : Option (ReadLocals F) :=
  if l.read_ok then
    match read_residuals_node M doc (some "SFy") 0 0 with
    | none => none
    | some y =>
      if y.values.isNone ∨ y.width ≠ l.width ∨ y.height ≠ l.height then
        some { l with
          residual_y := y.values, read_ok := false,
          heap := l.heap ++ allocated y.values "residual_y" ++ [HeapEvent.free "residual_x"] }
      else
        some { l with
          residual_y := y.values,
          heap := l.heap ++ allocated y.values "residual_y" }
  else some l

/-- Lines 212 to 222 of the source: the block that gets the Z residuals and
compares their dimensions with `width` and `height`. -/
def block_z {F : Type} (M : FloatModel F) (doc : TiXmlDocument)
    (l : ReadLocals F) : Option (ReadLocals F) :=
  if l.read_ok then
    match read_residuals_node M doc (some "SFz") 0 0 with
    | none => none
    | some z =>
      if z.values.isNone ∨ z.width ≠ l.width ∨ z.height ≠ l.height then
        some { l with
          residual_z := z.values, read_ok := false,
          heap := l.heap ++ allocated z.values "residual_z" ++
            [HeapEvent.free "residual_x", HeapEvent.free "residual_y"] }
      else
        some { l with
          residual_z := z.values,
          heap := l.heap ++ allocated z.values "residual_z" }
  else some l

/-- The loop `for ( size_t i = 0; i < num_values; i++ )` of `read_scene_flow`
that copies the three arrays into the columns of the matrix, with `k` iterations
to go. Reading through a null pointer and reading or writing out of bounds are
undefined. -/
def assemble_residuals {F : Type} (residual_x residual_y residual_z : Option (FloatBuffer F)) :
    Nat → Nat → ResidualMatrix F → Option (ResidualMatrix F)
  | 0, _, residuals => some residuals
  | k + 1, i, residuals =>
    match residual_x, residual_y, residual_z with
    | some x, some y, some z =>
      match x[i]?, y[i]?, z[i]? with
      | some xi, some yi, some zi =>
        if i < residuals.length then
          assemble_residuals residual_x residual_y residual_z k (i + 1)
            (residuals.set i { c0 := xi, c1 := yi, c2 := zi })
        else none
      | _, _, _ => none
    | _, _, _ => none

/-- Lines 224 to 238 of the source: the block that resizes the matrix of
residuals and fills it; the product `width * height` is taken in `uint32_t`. -/
def block_assemble {F : Type} (l : ReadLocals F) : Option (ReadLocals F) :=
  if l.read_ok then
    let num_values := (l.width * l.height) % 4294967296
    match assemble_residuals l.residual_x l.residual_y l.residual_z num_values 0
        (ResidualMatrix.resize l.residuals num_values) with
    | none => none
    | some residuals => some { l with residuals := residuals }
  else some l

/-- The locals of `read_scene_flow` after `doc.LoadFile`: `read_ok` tells whether
the file was loaded. -/
def ReadLocals.start {F : Type} (loaded : Bool) (translation rotation : Vector3f F)
    (residuals : ResidualMatrix F) : ReadLocals F :=
  { read_ok := loaded, translation := translation, rotation := rotation,
    residuals := residuals, width := 0, height := 0,
    residual_x := none, residual_y := none, residual_z := none, heap := [] }

/-- What the caller of `read_scene_flow` sees of the locals at the return. -/
def ReadLocals.result {F : Type} (l : ReadLocals F) : SceneFlowResult F :=
  { read_ok := l.read_ok, translation := l.translation, rotation := l.rotation,
    residuals := l.residuals, heap := l.heap }

/-- The C++ `read_scene_flow( file_name, translation, rotation, residuals )`: the
blocks of the function in the order of the source, each guarded by `read_ok`.
`fs` is the file system as seen by `doc.LoadFile`: the document parsed from a
path, or `none` when loading fails; the document is not looked at in that
case. -/
def read_scene_flow {F : Type} (M : FloatModel F) (fs : String → Option TiXmlDocument)
    (file_name : String) (translation rotation : Vector3f F)
    (residuals : ResidualMatrix F) : Option (SceneFlowResult F) :=
  let doc := (fs file_name).getD { RootElement := none }
  (((((some (ReadLocals.start (fs file_name).isSome translation rotation residuals)
    |>.bind (block_translation M doc))
    |>.bind (block_rotation M doc))
    |>.bind (block_x M doc))
    |>.bind (block_y M doc))
    |>.bind (block_z M doc))
    |>.bind block_assemble
    |>.map ReadLocals.result

/-! ## `compute_scene_flow` -/

/-- The data members of a `SRSFMockSceneFlowAlgorithm`. -/
structure SRSFMockSceneFlowAlgorithm where
  m_directory : String
  m_scene_flow_file_names : List String
  m_current_file_index : Nat
deriving DecidableEq, Repr

/-- The reader and the three reference parameters of `compute_scene_flow`, as a
call finds them and as it leaves them. -/
structure ComputeState (F : Type) where
  self : SRSFMockSceneFlowAlgorithm
  translation : Vector3f F
  rotation : Vector3f F
  residuals : ResidualMatrix F
deriving DecidableEq

/-- The local `path_to_file` of `compute_scene_flow`:
`m_directory + "/" + m_scene_flow_file_names[m_current_file_index]`. -/
def SRSFMockSceneFlowAlgorithm.path_to_file (self : SRSFMockSceneFlowAlgorithm) : String :=
  self.m_directory ++ "/" ++ self.m_scene_flow_file_names.getD self.m_current_file_index ""

/-- The C++ `compute_scene_flow( pDepthImage, pColourImage, translation, rotation,
residuals )`; the two image parameters are not used by the code. -/
def compute_scene_flow {F : Type} (M : FloatModel F) (fs : String → Option TiXmlDocument)
    (st : ComputeState F) : Option (ComputeState F) :=
  if st.self.m_current_file_index < st.self.m_scene_flow_file_names.length then do
    let r ← read_scene_flow M fs st.self.path_to_file st.translation st.rotation st.residuals
    if r.read_ok = false then
      pure { self := st.self, translation := r.translation, rotation := r.rotation,
             residuals := r.residuals }
    else
      pure { self := { st.self with m_current_file_index := st.self.m_current_file_index + 1 },
             translation := r.translation, rotation := r.rotation, residuals := r.residuals }
  else
    some st

/-- A run of `n` successive calls of `compute_scene_flow`. -/
def compute_scene_flow_n {F : Type} (M : FloatModel F) (fs : String → Option TiXmlDocument) :
    Nat → ComputeState F → Option (ComputeState F)
  | 0, st => some st
  | n + 1, st => (compute_scene_flow_n M fs n st).bind (compute_scene_flow M fs)

/-- A float model for worked examples: a float is written as the text that
denotes it. A field converts when it has a digit and ends in a digit or in the
decimal point; zero is stored otherwise. -/
def textFloats : FloatModel String where
  strtof := fun field =>
    if field.any Char.isDigit &&
        (match field.getLast? with
         | some c => c.isDigit || c == '.'
         | none => false)
    then some (String.mk field) else none
  onFail := fun _ => "0"

/-! ## Numeric tokens -/

/-- A numeric token: a text that is not empty, that the scan of a floating point
field accepts whole, and that converts to a float. -/
def NumericToken {F : Type} (M : FloatModel F) (t : List Char) : Prop :=
  t ≠ [] ∧ scanField FieldState.start t = (t, []) ∧ (M.strtof t).isSome = true

/-- The text `s` holds the numeric tokens `toks` in this order as its first
tokens: each is preceded by white space or by nothing, and is followed by white
space or by the end of the text. What follows the last of them is free. -/
def HoldsTokens {F : Type} (M : FloatModel F) : List (List Char) → List Char → Prop
  | [], _ => True
  | t :: ts, s =>
    NumericToken M t ∧
    ∃ ws rest, s = ws ++ t ++ rest ∧ (∀ c ∈ ws, isspace c = true) ∧
      (rest = [] ∨ ∃ c r, rest = c :: r ∧ isspace c = true) ∧ HoldsTokens M ts rest

/-- Numeric tokenhood is decided by running the scan and the conversion. -/
instance NumericToken.decidable {F : Type} (M : FloatModel F) (t : List Char) :
    Decidable (NumericToken M t) :=
  inferInstanceAs (Decidable (_ ∧ _ ∧ _))

/-- The text that writes the given tokens with one space between neighbours. -/
def spaced : List (List Char) → List Char
  | [] => []
  | [t] => t
  | t :: t' :: ts => t ++ ' ' :: spaced (t' :: ts)

/-! ## Records for worked examples -/

/-- The element `<tag><data>text</data></tag>` of a record. -/
def vectorElement (tag text : String) : TiXmlNode :=
  .element tag [.element "data" [.text text]]

/-- The element `<tag><rows>rows</rows><cols>cols</cols><data>text</data></tag>`
of a record; without the `data` child when `text` is `none`. -/
def fieldElement (tag rows cols : String) (text : Option String) : TiXmlNode :=
  .element tag
    ([.element "rows" [.text rows], .element "cols" [.text cols]] ++
      (match text with
       | some t => [.element "data" [.text t]]
       | none => []))

/-- A document whose root element holds the given children. -/
def recordOf (children : List TiXmlNode) : TiXmlDocument :=
  { RootElement := some (.element "Root" children) }

/-- A vector with the three given texts as values, in `textFloats`. -/
def vec3 (a b c : String) : Vector3f String :=
  { c0 := some a, c1 := some b, c2 := some c }

/-- A file system with the single file `path`. -/
def oneFile (path : String) (doc : TiXmlDocument) : String → Option TiXmlDocument :=
  fun p => if p = path then some doc else none

/-- A record with a 2 by 2 grid. -/
def goodRecord : TiXmlDocument :=
  recordOf
    [vectorElement "Translation" "1 2 3", vectorElement "Rotation" "0 0 0",
     fieldElement "SFx" "2" "2" (some "1 2 3 4"),
     fieldElement "SFy" "2" "2" (some "5 6 7 8"),
     fieldElement "SFz" "2" "2" (some "9 10 11 12")]



/-- A record with a 1 by 1 grid whose `SFx` element has no `data` child. -/
def noDataRecord : TiXmlDocument :=
  recordOf
    [vectorElement "Translation" "1 2 3", vectorElement "Rotation" "0 0 0",
     fieldElement "SFx" "1" "1" none,
     fieldElement "SFy" "1" "1" (some "5"),
     fieldElement "SFz" "1" "1" (some "9")]

/-- A record with a 2 by 1 grid whose `SFx` data holds one number only. -/
def shortDataRecord : TiXmlDocument :=
  recordOf
    [vectorElement "Translation" "1 2 3", vectorElement "Rotation" "0 0 0",
     fieldElement "SFx" "2" "1" (some "4"),
     fieldElement "SFy" "2" "1" (some "5 6"),
     fieldElement "SFz" "2" "1" (some "9 10")]

/-- A record whose `Rotation` element has no `data` child. -/
def noRotationRecord : TiXmlDocument :=
  recordOf
    [vectorElement "Translation" "1 2 3", .element "Rotation" [],
     fieldElement "SFx" "1" "1" (some "4"),
     fieldElement "SFy" "1" "1" (some "5"),
     fieldElement "SFz" "1" "1" (some "9")]

/-- A reader over the one frame `d/sflow_00000.xml`, as the constructor leaves it. -/
def oneFrameReader : SRSFMockSceneFlowAlgorithm :=
  { m_directory := "d", m_scene_flow_file_names := ["sflow_00000.xml"],
    m_current_file_index := 0 }

/-- The state of a caller of `compute_scene_flow` that holds the reader `self`,
sevens in its two vectors and an empty matrix. -/
def callerState (self : SRSFMockSceneFlowAlgorithm) : ComputeState String :=
  { self := self, translation := vec3 "7" "7" "7", rotation := vec3 "7" "7" "7",
    residuals := [] }

/-- The code decodes the vector `v` from the element `tag` of the document: the
`data` child is there and `read_floats_from_string` returns true on its text
with three values expected, leaving `v` in the local array. -/
def DecodesVector {F : Type} (M : FloatModel F) (doc : TiXmlDocument) (tag : String)
    (v : Vector3f F) : Prop :=
  ∃ element t, childElement doc tag "data" = some (some element) ∧
    read_floats_from_string M element.GetText 3 (some [none, none, none]) = some t ∧
    t.read_ok = true ∧ v = Vector3f.ofArray (t.read_values.getD [])

/-- The child `child` of the element `tag` is there, has a text, and `atoi` reads
the number `n` from it. -/
def HoldsInt (doc : TiXmlDocument) (tag child : String) (n : Nat) : Prop :=
  ∃ element text, childElement doc tag child = some (some element) ∧
    element.GetText = some text ∧ atoi text = some (n : Int)

/-- The `data` child of the element `tag` is there and its text holds the numeric
tokens `toks` as its first tokens. -/
def HoldsData {F : Type} (M : FloatModel F) (doc : TiXmlDocument) (tag : String)
    (toks : List (List Char)) : Prop :=
  ∃ element text, childElement doc tag "data" = some (some element) ∧
    element.GetText = some text ∧ HoldsTokens M toks text.toList

/-- A well-formed record with `rows = R` and `cols = C`: `Translation/data` and
`Rotation/data` hold three numeric tokens each, and each of `SFx`, `SFy` and
`SFz` has `rows` reading `R`, `cols` reading `C`, and `R * C` numeric tokens in
its data, with `R * C > 0`. -/
structure WellFormedRecord {F : Type} (M : FloatModel F) (doc : TiXmlDocument) (R C : Nat)
    (tt rt xs ys zs : List (List Char)) : Prop where
  translation : HoldsData M doc "Translation" tt ∧ tt.length = 3
  rotation : HoldsData M doc "Rotation" rt ∧ rt.length = 3
  x_field : HoldsInt doc "SFx" "rows" R ∧ HoldsInt doc "SFx" "cols" C ∧
    HoldsData M doc "SFx" xs ∧ xs.length = R * C
  y_field : HoldsInt doc "SFy" "rows" R ∧ HoldsInt doc "SFy" "cols" C ∧
    HoldsData M doc "SFy" ys ∧ ys.length = R * C
  z_field : HoldsInt doc "SFz" "rows" R ∧ HoldsInt doc "SFz" "cols" C ∧
    HoldsData M doc "SFz" zs ∧ zs.length = R * C
  positive : 0 < R * C

/-- A text of 2^32 tokens `0` with single spaces between them. -/
def wideText : String :=
  String.mk (spaced (List.replicate 4294967296 ['0']))

/-- A record with `rows = 65536` and `cols = 65536` whose three fields hold
65536 * 65536 = 2^32 numeric tokens each. -/
def wideRecord : TiXmlDocument :=
  recordOf
    [vectorElement "Translation" "1 2 3", vectorElement "Rotation" "0 0 0",
     fieldElement "SFx" "65536" "65536" (some wideText),
     fieldElement "SFy" "65536" "65536" (some wideText),
     fieldElement "SFz" "65536" "65536" (some wideText)]

/-- A record whose `SFy` is a 1 by 2 grid where `SFx` and `SFz` are 1 by 1. -/
def mismatchRecord : TiXmlDocument :=
  recordOf
    [vectorElement "Translation" "1 2 3", vectorElement "Rotation" "0 0 0",
     fieldElement "SFx" "1" "1" (some "4"),
     fieldElement "SFy" "1" "2" (some "5 6"),
     fieldElement "SFz" "1" "1" (some "9")]

/-- Every file named by the frame sequence of the reader is a record that
`read_scene_flow` decodes successfully, whatever the outputs held before. -/
def AllFramesDecode {F : Type} (M : FloatModel F) (fs : String → Option TiXmlDocument)
    (self : SRSFMockSceneFlowAlgorithm) : Prop :=
  ∀ i, i < self.m_scene_flow_file_names.length →
    ∀ (t r : Vector3f F) (res : ResidualMatrix F),
      ∃ out, read_scene_flow M fs
          (self.m_directory ++ "/" ++ self.m_scene_flow_file_names.getD i "") t r res = some out ∧
        out.read_ok = true

/-- A file system with `goodRecord` under two frame file names of directory `d`. -/
def twoFrames : String → Option TiXmlDocument :=
  fun p => if p = "d/sflow_00000.xml" ∨ p = "d/sflow_00001.xml" then some goodRecord else none

/-- A reader over the two frames of `twoFrames`, as the constructor leaves it. -/
def twoFramesReader : SRSFMockSceneFlowAlgorithm :=
  { m_directory := "d", m_scene_flow_file_names := ["sflow_00000.xml", "sflow_00001.xml"],
    m_current_file_index := 0 }

/-- A record whose `SFz` is a 2 by 1 grid where `SFx` and `SFy` are 1 by 1. -/
def mismatchZRecord : TiXmlDocument :=
  recordOf
    [vectorElement "Translation" "1 2 3", vectorElement "Rotation" "0 0 0",
     fieldElement "SFx" "1" "1" (some "4"),
     fieldElement "SFy" "1" "1" (some "5"),
     fieldElement "SFz" "2" "1" (some "9 10")]

/-- The child `child` of the element `tag` is there and `GetText` gives `text`
for it. -/
def DimensionText (doc : TiXmlDocument) (tag child : String) (text : String) : Prop :=
  ∃ element, childElement doc tag child = some (some element) ∧ element.GetText = some text

/-- The dimension resolved from the child `child` of the element `tag` is `v`: the
child has a text, `atoi` reads it without overflow, and `v` is the result as a
`uint32_t`. -/
def ResolvesDimension (doc : TiXmlDocument) (tag child : String) (v : Nat) : Prop :=
  ∃ text i, DimensionText doc tag child text ∧ atoi text = some i ∧ v = toUInt32 i

/-- The text has no decimal digit where a number would start: behind leading
white space and one optional sign comes the end of the text or a character that
is no digit. -/
def startsWithoutDigit (text : String) : Bool :=
  match text.toList.dropWhile isspace with
  | [] => true
  | c :: cs =>
    if c == '-' || c == '+' then
      match cs with
      | [] => true
      | d :: _ => !d.isDigit
    else !c.isDigit

/-- A record whose `SFx` has `rows` 0 and `cols` 3. -/
def zeroRowsRecord : TiXmlDocument :=
  recordOf
    [vectorElement "Translation" "1 2 3", vectorElement "Rotation" "0 0 0",
     fieldElement "SFx" "0" "3" (some "4 5 6"),
     fieldElement "SFy" "1" "1" (some "5"),
     fieldElement "SFz" "1" "1" (some "9")]

/-- A record whose `SFx` has `rows` "abc", a text without a number, and `cols` 3. -/
def wordRowsRecord : TiXmlDocument :=
  recordOf
    [vectorElement "Translation" "1 2 3", vectorElement "Rotation" "0 0 0",
     fieldElement "SFx" "abc" "3" (some "4 5 6"),
     fieldElement "SFy" "1" "1" (some "5"),
     fieldElement "SFz" "1" "1" (some "9")]

/-- A record whose `SFx` has no `rows` child. -/
def noRowsRecord : TiXmlDocument :=
  recordOf
    [vectorElement "Translation" "1 2 3", vectorElement "Rotation" "0 0 0",
     .element "SFx" [.element "cols" [.text "1"], .element "data" [.text "4"]],
     fieldElement "SFy" "1" "1" (some "5"),
     fieldElement "SFz" "1" "1" (some "9")]

/-- A record whose `SFx` has an empty `rows` child, `<rows></rows>`. -/
def emptyRowsRecord : TiXmlDocument :=
  recordOf
    [vectorElement "Translation" "1 2 3", vectorElement "Rotation" "0 0 0",
     .element "SFx" [.element "rows" [], .element "cols" [.text "1"],
                     .element "data" [.text "4"]],
     fieldElement "SFy" "1" "1" (some "5"),
     fieldElement "SFz" "1" "1" (some "9")]

/-- A record whose `SFx` has `rows` "2x", a text that is no decimal integer and
starts with a digit. -/
def digitWordRowsRecord : TiXmlDocument :=
  recordOf
    [vectorElement "Translation" "1 2 3", vectorElement "Rotation" "0 0 0",
     fieldElement "SFx" "2x" "1" (some "4 5"),
     fieldElement "SFy" "2" "1" (some "5 6"),
     fieldElement "SFz" "2" "1" (some "9 10")]

/-- A text of 65536 tokens `0` with single spaces between them. -/
def wrapText : String :=
  String.mk (spaced (List.replicate 65536 ['0']))

/-- A record with `rows = 65536` and `cols = 65537`, whose product is
2^32 + 65536, and 65536 numeric tokens in the data of each field. -/
def wrapRecord : TiXmlDocument :=
  recordOf
    [vectorElement "Translation" "1 2 3", vectorElement "Rotation" "0 0 0",
     fieldElement "SFx" "65536" "65537" (some wrapText),
     fieldElement "SFy" "65536" "65537" (some wrapText),
     fieldElement "SFz" "65536" "65537" (some wrapText)]

/-! ## The constructor -/

/-- An atom of a regular expression: one character, or a bracket range such as
`[0-9]`. -/
inductive RegexAtom where
  | char (c : Char)
  | range (first last : Char)
deriving DecidableEq, Repr

/-- Does the atom match the character. With `icase` a character is compared by
its lower case form, and a range is tried on the lower case and on the upper
case form of the character. -/
def RegexAtom.accepts (icase : Bool) : RegexAtom → Char → Bool
  | .char c, x => if icase then x.toLower == c.toLower else x == c
  | .range first last, x =>
    if icase then
      (first.toNat ≤ x.toLower.toNat && x.toLower.toNat ≤ last.toNat) ||
        (first.toNat ≤ x.toUpper.toNat && x.toUpper.toNat ≤ last.toNat)
    else
      first.toNat ≤ x.toNat && x.toNat ≤ last.toNat

/-- The atom repeated `n` times against the head of a text: the rest of the text
when the first `n` characters all match. -/
def regex_consume (icase : Bool) (atom : RegexAtom) : Nat → List Char → Option (List Char)
  | 0, s => some s
  | _ + 1, [] => none
  | n + 1, c :: cs => if atom.accepts icase c then regex_consume icase atom n cs else none

/-- A sequence of atoms, each repeated a given number of times, against a whole
text. -/
def regex_match_atoms (icase : Bool) : List (RegexAtom × Nat) → List Char → Bool
  | [], s => s.isEmpty
  | (atom, n) :: rest, s =>
    match regex_consume icase atom n s with
    | some s' => regex_match_atoms icase rest s'
    | none => false

/-- The C++ `std::regex_match( name, regex )` for a regular expression that is a
sequence of repeated atoms: the whole name has to match. -/
def regex_match (name : String) (regex : List (RegexAtom × Nat)) (icase : Bool) : Bool :=
  regex_match_atoms icase regex name.toList

/-- The expression `"sflow_[0-9]{5}\\.xml"` of the constructor, as it parses. -/
def scene_flow_filename_regex : List (RegexAtom × Nat) :=
  [(.char 's', 1), (.char 'f', 1), (.char 'l', 1), (.char 'o', 1), (.char 'w', 1),
   (.char '_', 1), (.range '0' '9', 5), (.char '.', 1), (.char 'x', 1), (.char 'm', 1),
   (.char 'l', 1)]

/-- The filter the constructor passes to `files_in_directory`: the name matches
`scene_flow_filename_regex`, compiled with `std::regex_constants::icase`. -/
def is_valid (name : String) : Bool :=
  regex_match name scene_flow_filename_regex true

/-- The order of `std::string` on the characters of two strings: the first
difference decides, and a proper head of a string comes before it. -/
def chars_lt : List Char → List Char → Bool
  | [], [] => false
  | [], _ :: _ => true
  | _ :: _, [] => false
  | a :: as, b :: bs =>
    if a.toNat < b.toNat then true
    else if b.toNat < a.toNat then false
    else chars_lt as bs

/-- The C++ `a < b` for two `std::string`s. -/
def string_lt (a b : String) : Bool :=
  chars_lt a.toList b.toList

/-- The relation `!( b < a )`, in which the result of `std::sort` ascends. -/
def string_le (a b : String) : Prop :=
  string_lt b a = false

/-- Whether `!( b < a )` holds is computed by `string_lt`. -/
instance string_le.decidable : DecidableRel string_le :=
  fun a b => inferInstanceAs (Decidable (string_lt b a = false))

/-- The C++ `std::sort( first, last )` on strings: the sorted arrangement of the
names, here reached by insertion. -/
def std_sort (names : List String) : List String :=
  List.insertionSort string_le names

/-- Modelled from the spec: the helpers `file_exists` and `files_in_directory` of
`FileUtilities.hpp`, which the constructor calls and which are not in the
source at hand, look at a file system of which this is the part they need:
for a path, whether it exists and whether it is a directory, and the names of
the entries of a directory. -/
structure FileUtilities where
  file_exists : String → Bool × Bool
  entries : String → List String

/-- Modelled from the spec: `files_in_directory( directory, files, filter )` lists
the directory and appends to `files` the names of the entries that the filter
accepts, in the order of the listing; the names are not sorted. -/
def FileUtilities.files_in_directory (U : FileUtilities) (directory : String)
    (files : List String) (filter : String → Bool) : List String :=
  files ++ (U.entries directory).filter filter

/-- The C++ constructor `SRSFMockSceneFlowAlgorithm( scene_flow_directory_name )`.
`m_directory` and `m_scene_flow_file_names` start empty; the body does not
write `m_current_file_index` when the directory is not found, so that member
keeps `initial_index`, the value it has when the body is entered. -/
def SRSFMockSceneFlowAlgorithm.construct (U : FileUtilities) (initial_index : Nat)
    (scene_flow_directory_name : String) : SRSFMockSceneFlowAlgorithm :=
  if (U.file_exists scene_flow_directory_name).1 &&
      (U.file_exists scene_flow_directory_name).2 then
    { m_directory := scene_flow_directory_name,
      m_scene_flow_file_names :=
        std_sort (U.files_in_directory scene_flow_directory_name [] is_valid),
      m_current_file_index := 0 }
  else
    { m_directory := "", m_scene_flow_file_names := [], m_current_file_index := initial_index }

/-- A frame file name in the words of the specification: compared without regard
to case, the name consists of `sflow_`, then exactly five decimal digits, then
`.xml`, and nothing else. -/
def IsFrameFileName (name : String) : Prop :=
  ∃ head digits tail, name.toList = head ++ digits ++ tail ∧
    head.map Char.toLower = "sflow_".toList ∧
    digits.length = 5 ∧ (∀ d ∈ digits, d.isDigit = true) ∧
    tail.map Char.toLower = ".xml".toList

/-- The frame number of a frame file name: the number its five digits write. -/
def frame_number (name : String) : Nat :=
  atoiDigits 0 ((name.toList.drop 6).take 5)

/-- A file system in which `d` is a directory with six entries, two of them frame
files. -/
def sampleDirectory : FileUtilities where
  file_exists := fun p => (p == "d", p == "d")
  entries := fun p =>
    if p = "d" then
      ["sflow_00002.xml", "sflow_1.xml", "SFLOW_00001.XML", "xsflow_00003.xml",
       "sflow_00004.xml.bak", "depth.ppm"]
    else []

/-- A file system in which `d` is a directory with the frame files
`sflow_00001.xml` and `SFLOW_00002.xml`. -/
def mixedCaseDirectory : FileUtilities where
  file_exists := fun p => (p == "d", p == "d")
  entries := fun p => if p = "d" then ["sflow_00001.xml", "SFLOW_00002.xml"] else []

/-! ## Reading numeric tokens from a stream -/

/-- A white space character is one of the six of the C locale. -/
theorem isspace_cases (c : Char) (h : isspace c = true) :
    c = ' ' ∨ c = '\t' ∨ c = '\n' ∨ c = Char.ofNat 11 ∨ c = Char.ofNat 12 ∨ c = '\r' := by
  unfold isspace at h
  simp only [Bool.or_eq_true, beq_iff_eq, Bool.and_eq_true, decide_eq_true_eq] at h
  rcases h with h | ⟨h1, h2⟩
  · exact Or.inl h
  · have hc : c = Char.ofNat c.toNat := (Char.ofNat_toNat c).symm
    rw [hc]
    interval_cases c.toNat <;> decide

/-- No white space character is accepted in a floating point field. -/
theorem acceptChar_isspace (st : FieldState) (c : Char) (h : isspace c = true) :
    acceptChar st c = none := by
  rcases isspace_cases c h with rfl | rfl | rfl | rfl | rfl | rfl <;> rfl

/-- The scan of a field stops at white space and at the end of the text. -/
theorem scanField_append (rest : List Char)
    (hrest : rest = [] ∨ ∃ c r, rest = c :: r ∧ isspace c = true) :
    ∀ (t : List Char) (st : FieldState), scanField st t = (t, []) →
      scanField st (t ++ rest) = (t, rest) := by
  intro t
  induction t with
  | nil =>
    intro st _
    rcases hrest with rfl | ⟨c, r, rfl, hc⟩
    · rfl
    · simp [scanField, acceptChar_isspace st c hc]
  | cons a t ih =>
    intro st h
    simp only [scanField, List.cons_append] at h ⊢
    cases hacc : acceptChar st a with
    | none => simp [hacc] at h
    | some st' =>
      simp only [hacc, Prod.mk.injEq, List.cons.injEq, true_and] at h ⊢
      have hscan : scanField st' t = (t, []) := Prod.ext h.1 h.2
      have hrec : scanField st' (t.append rest) = (t, rest) := ih st' hscan
      rw [hrec]
      exact ⟨rfl, rfl⟩

/-- A numeric token starts with a character that is not white space. -/
theorem NumericToken.head_not_space {F : Type} {M : FloatModel F} {t : List Char}
    (ht : NumericToken M t) : ∃ a t', t = a :: t' ∧ isspace a = false := by
  obtain ⟨hne, hscan, _⟩ := ht
  cases t with
  | nil => exact absurd rfl hne
  | cons a t' =>
    refine ⟨a, t', rfl, ?_⟩
    cases hsp : isspace a with
    | false => rfl
    | true =>
      simp [scanField, acceptChar_isspace FieldState.start a hsp] at hscan

/-- One extraction from a good stream that stands before a numeric token stores
the value of the token and leaves the stream right behind it. -/
theorem extractFloat_token {F : Type} (M : FloatModel F) (s : IStringStream)
    (ws t rest : List Char) (hgood : s.good = true) (hbuf : s.buf = ws ++ t ++ rest)
    (hws : ∀ c ∈ ws, isspace c = true) (ht : NumericToken M t)
    (hrest : rest = [] ∨ ∃ c r, rest = c :: r ∧ isspace c = true) :
    extractFloat M s
      = ({ buf := rest, eofbit := rest.isEmpty, failbit := false }, M.strtof t) := by
  obtain ⟨a, t', rfl, ha⟩ := ht.head_not_space
  obtain ⟨_, hscan, hconv⟩ := ht
  have hdrop : s.buf.dropWhile isspace = a :: (t' ++ rest) := by
    rw [hbuf, List.append_assoc, List.dropWhile_append_of_pos hws]
    simp [List.dropWhile_cons, ha]
  have hfield := scanField_append rest hrest (a :: t') FieldState.start hscan
  rw [List.cons_append] at hfield
  obtain ⟨v, hv⟩ := Option.isSome_iff_exists.mp hconv
  simp only [extractFloat, hgood, hdrop, hfield, hv]
  rfl

/-- Writing cell `i` and then taking the cells before `i + 1`, the new values and
the cells behind them is the same as splicing the value in at `i`. -/
theorem splice_set {α : Type} (values : List α) (i k : Nat) (x : α) (mid : List α)
    (hi : i < values.length) :
    (values.set i x).take (i + 1) ++ mid ++ (values.set i x).drop (i + 1 + k)
      = values.take i ++ x :: mid ++ values.drop (i + (k + 1)) := by
  have h1 : (values.set i x).take (i + 1) = values.take i ++ [x] := by
    rw [List.set_eq_take_append_cons_drop, if_pos hi]
    have hlen : (List.take i values).length = i := by
      rw [List.length_take]
      omega
    rw [List.take_append_eq_append_take, hlen, List.take_of_length_le (by omega)]
    simp
  have h2 : (values.set i x).drop (i + 1 + k) = values.drop (i + (k + 1)) := by
    rw [List.drop_set_of_lt _ _ (by omega)]
    congr 1
    omega
  rw [h1, h2]
  simp

/-- The loop of `read_floats_from_string` over a stream that holds as many
numeric tokens as there are iterations to go: every iteration stores the value
of the next token, and the loop ends with `read_ok` true. -/
theorem read_floats_loop_tokens {F : Type} (M : FloatModel F) (n : Nat) :
    ∀ (toks : List (List Char)) (i : Nat) (s : IStringStream) (values : FloatBuffer F),
      s.failbit = false → (s.eofbit = true → s.buf = []) → HoldsTokens M toks s.buf →
      i + toks.length ≤ values.length →
      read_floats_loop M n toks.length i s (some values) = some
        { read_ok := true,
          read_values :=
            some (values.take i ++ toks.map M.strtof ++ values.drop (i + toks.length)),
          log := [] } := by
  intro toks
  induction toks with
  | nil =>
    intro i s values _ _ _ _
    simp [read_floats_loop]
  | cons t ts ih =>
    intro i s values hfail heof hholds hlen
    obtain ⟨ht, ws, rest, hbuf, hws, hrest, htail⟩ := hholds
    have hne : s.buf ≠ [] := by
      obtain ⟨a, t', rfl, _⟩ := ht.head_not_space
      rw [hbuf]
      simp
    have hgood : s.good = true := by
      cases he : s.eofbit with
      | true => exact absurd (heof he) hne
      | false => simp [IStringStream.good, he, hfail]
    have hlen' : i + (ts.length + 1) ≤ values.length := hlen
    have hi : i < values.length := by omega
    obtain ⟨v, hv⟩ := Option.isSome_iff_exists.mp ht.2.2
    have hext := extractFloat_token M s ws t rest hgood hbuf hws ht hrest
    rw [hv] at hext
    simp only [List.length_cons, read_floats_loop, hgood, if_true, hi, hext]
    rw [ih (i + 1) { buf := rest, eofbit := rest.isEmpty, failbit := false }
      (values.set i (some v)) rfl (by simp) htail (by rw [List.length_set]; omega)]
    rw [splice_set values i ts.length (some v) _ hi, List.map_cons, hv]

/-- Every token of a text that holds numeric tokens is a numeric token. -/
theorem HoldsTokens.numeric {F : Type} {M : FloatModel F} :
    ∀ {toks : List (List Char)} {s : List Char}, HoldsTokens M toks s →
      ∀ t ∈ toks, NumericToken M t := by
  intro toks
  induction toks with
  | nil =>
    intro s _ t ht
    cases ht
  | cons t0 ts ih =>
    intro s h t ht
    obtain ⟨h0, ws, rest, _, _, _, htail⟩ := h
    rcases List.mem_cons.mp ht with rfl | hmem
    · exact h0
    · exact ih htail t hmem

/-- A call of `read_floats_from_string` on a text that holds `toks.length`
numeric tokens, with an array of at least that many cells: the values of the
tokens are stored at the head of the array and the call returns true. -/
theorem read_floats_from_string_tokens {F : Type} (M : FloatModel F) (string : String)
    (toks : List (List Char)) (values : FloatBuffer F) (hn : 0 < toks.length)
    (h : HoldsTokens M toks string.toList) (hlen : toks.length ≤ values.length) :
    read_floats_from_string M (some string) toks.length (some values) = some
      { read_ok := true,
        read_values := some (toks.map M.strtof ++ values.drop toks.length),
        log := [] } := by
  have hloop := read_floats_loop_tokens M toks.length toks 0 (IStringStream.open string) values
    rfl (fun he => by simp [IStringStream.open] at he) h (by omega)
  simp only [read_floats_from_string, Nat.ne_of_gt hn, if_false, hloop]
  simp

/-- Claim C10. A call of `read_floats_from_string` with a text whose first `n`
tokens are white space separated numeric tokens, `n > 0`, and a present array of
at least `n` cells returns true; cell `i` holds the value of the `i`-th token for
every `i < n`; the cells from `n` on are as before; and the result is the same
for every text with the same first `n` tokens, whatever follows them. -/
theorem read_floats_from_string_reads_tokens {F : Type} (M : FloatModel F) (string : String)
    (toks : List (List Char)) (values : FloatBuffer F) (hn : 0 < toks.length)
    (h : HoldsTokens M toks string.toList) (hlen : toks.length ≤ values.length) :
    ∃ out, read_floats_from_string M (some string) toks.length (some values)
        = some { read_ok := true, read_values := some out, log := [] } ∧
      out.length = values.length ∧
      (∀ i (hi : i < toks.length),
        (M.strtof toks[i]).isSome = true ∧ out[i]? = some (M.strtof toks[i])) ∧
      (∀ i, toks.length ≤ i → out[i]? = values[i]?) ∧
      (∀ string' : String, HoldsTokens M toks string'.toList →
        read_floats_from_string M (some string') toks.length (some values)
          = read_floats_from_string M (some string) toks.length (some values)) := by
  refine ⟨toks.map M.strtof ++ values.drop toks.length,
    read_floats_from_string_tokens M string toks values hn h hlen, ?_, ?_, ?_, ?_⟩
  · simp only [List.length_append, List.length_map, List.length_drop]
    omega
  · intro i hi
    refine ⟨(h.numeric toks[i] (List.getElem_mem hi)).2.2, ?_⟩
    rw [List.getElem?_append_left (by simpa using hi)]
    simp [hi]
  · intro i hi
    rw [List.getElem?_append_right (by simpa using hi)]
    simp only [List.length_map, List.getElem?_drop]
    congr 1
    omega
  · intro string' h'
    rw [read_floats_from_string_tokens M string toks values hn h hlen,
      read_floats_from_string_tokens M string' toks values hn h' hlen]

/-- White space in front of a text does not change the tokens it holds. -/
theorem HoldsTokens.cons_space {F : Type} {M : FloatModel F} {toks : List (List Char)}
    {s : List Char} (h : HoldsTokens M toks s) (c : Char) (hc : isspace c = true) :
    HoldsTokens M toks (c :: s) := by
  cases toks with
  | nil => trivial
  | cons t ts =>
    obtain ⟨ht, ws, rest, hs, hws, hrest, htail⟩ := h
    refine ⟨ht, c :: ws, rest, by rw [hs]; rfl, ?_, hrest, htail⟩
    intro d hd
    rcases List.mem_cons.mp hd with rfl | hmem
    · exact hc
    · exact hws d hmem

/-- Numeric tokens written with single spaces between them are held by the text
so written, whatever follows it behind a white space character. -/
theorem holdsTokens_spaced_append {F : Type} (M : FloatModel F) (tail : List Char)
    (htail : tail = [] ∨ ∃ c r, tail = c :: r ∧ isspace c = true) :
    ∀ toks : List (List Char), (∀ t ∈ toks, NumericToken M t) →
      HoldsTokens M toks (spaced toks ++ tail) := by
  intro toks
  induction toks with
  | nil =>
    intro _
    trivial
  | cons t ts ih =>
    intro h
    have ht : NumericToken M t := h t (List.mem_cons_self t ts)
    cases ts with
    | nil =>
      exact ⟨ht, [], tail, by simp [spaced], by simp, htail, trivial⟩
    | cons t' ts' =>
      have hrest := ih (fun u hu => h u (List.mem_cons_of_mem t hu))
      exact ⟨ht, [], ' ' :: (spaced (t' :: ts') ++ tail), by simp [spaced], by simp,
        Or.inr ⟨' ', _, rfl, by decide⟩, hrest.cons_space ' ' (by decide)⟩

/-- Numeric tokens written with single spaces between them are held by the text
so written. -/
theorem holdsTokens_spaced {F : Type} (M : FloatModel F) (toks : List (List Char))
    (h : ∀ t ∈ toks, NumericToken M t) : HoldsTokens M toks (spaced toks) := by
  have happ := holdsTokens_spaced_append M [] (Or.inl rfl) toks h
  rwa [List.append_nil] at happ

/-- Claim C10 at the text "1.0 2.0 3.0 rest" with `n = 2` and an array of three
cells: the first two cells get the first two values, the third cell is kept. -/
theorem read_floats_from_string_reads_tokens_witness :
    HoldsTokens textFloats ["1.0".toList, "2.0".toList] "1.0 2.0 3.0 rest".toList ∧
    ∃ out, read_floats_from_string textFloats (some "1.0 2.0 3.0 rest") 2
          (some [none, none, some "9"])
        = some { read_ok := true, read_values := some out, log := [] } ∧
      out[0]? = some (some "1.0") ∧ out[1]? = some (some "2.0") ∧
      out[2]? = some (some "9") :=
  have h : HoldsTokens textFloats ["1.0".toList, "2.0".toList] "1.0 2.0 3.0 rest".toList :=
    holdsTokens_spaced_append textFloats " 3.0 rest".toList
      (Or.inr ⟨' ', "3.0 rest".toList, rfl, by decide⟩) ["1.0".toList, "2.0".toList]
      (by decide)
  ⟨h, (read_floats_from_string_reads_tokens textFloats "1.0 2.0 3.0 rest"
        ["1.0".toList, "2.0".toList] [none, none, some "9"] (by decide) h (by decide)).imp
      (fun _ ho =>
        ⟨ho.1, (ho.2.2.1 0 (by decide)).2, (ho.2.2.1 1 (by decide)).2,
          ho.2.2.2.1 2 (by decide)⟩)⟩

/-! ## Texts with too few numbers -/

/-- Claim C8, evaluated. The text "1.0 2.0 " ends in white space after two values
and three are expected: the call returns true and the third cell is never
written. The same happens for the empty text with one value expected, and for
a text whose second token is no number with two values expected, where zero is
stored for it. -/
theorem read_floats_from_string_accepts_short_text :
    read_floats_from_string textFloats (some "1.0 2.0 ") 3 (some [none, none, none])
      = some { read_ok := true, read_values := some [some "1.0", some "2.0", none], log := [] } ∧
    read_floats_from_string textFloats (some "") 1 (some [none])
      = some { read_ok := true, read_values := some [none], log := [] } ∧
    read_floats_from_string textFloats (some "1.0 abc") 2 (some [none, none])
      = some { read_ok := true, read_values := some [some "1.0", some "0"], log := [] } := by
  decide

/-- Claim C9, evaluated. For the text "1.0 2.0" with three values expected the
call returns false after storing two values, and the diagnostic written is
"Expected 3, read 3", not "read 2". -/
theorem read_floats_from_string_reports_one_more :
    read_floats_from_string textFloats (some "1.0 2.0") 3 (some [none, none, none])
      = some { read_ok := false, read_values := some [some "1.0", some "2.0", none],
               log := [Diagnostic.notEnough 3 3] } := by
  decide

/-! ## Records with missing or short residual data -/

/-- Claim C1, evaluated. For a record whose `SFx` has no `data` child, and for a
record whose `SFx` data holds one number where two are needed,
`read_scene_flow` returns true with cells of the matrix never written, and
`compute_scene_flow` moves the cursor from 0 to 1. -/
theorem read_scene_flow_accepts_missing_data :
    read_scene_flow textFloats (oneFile "d/sflow_00000.xml" noDataRecord) "d/sflow_00000.xml"
        (vec3 "7" "7" "7") (vec3 "7" "7" "7") []
      = some { read_ok := true, translation := vec3 "1" "2" "3", rotation := vec3 "0" "0" "0",
               residuals := [{ c0 := none, c1 := some "5", c2 := some "9" }],
               heap := [.alloc "residual_x", .alloc "residual_y", .alloc "residual_z"] } ∧
    (compute_scene_flow textFloats (oneFile "d/sflow_00000.xml" noDataRecord)
        (callerState oneFrameReader)).map (fun st => st.self.m_current_file_index) = some 1 ∧
    read_scene_flow textFloats (oneFile "d/sflow_00000.xml" shortDataRecord) "d/sflow_00000.xml"
        (vec3 "7" "7" "7") (vec3 "7" "7" "7") []
      = some { read_ok := true, translation := vec3 "1" "2" "3", rotation := vec3 "0" "0" "0",
               residuals := [vec3 "4" "5" "9", { c0 := none, c1 := some "6", c2 := some "10" }],
               heap := [.alloc "residual_x", .alloc "residual_y", .alloc "residual_z"] } ∧
    (compute_scene_flow textFloats (oneFile "d/sflow_00000.xml" shortDataRecord)
        (callerState oneFrameReader)).map (fun st => st.self.m_current_file_index) = some 1 := by
  decide

/-! ## The outputs of a failed read -/

/-- Claim C5 fails as stated: for a record whose `Translation` decodes and whose
`Rotation` has no `data` child, `read_scene_flow` returns false and the
translation of the caller, (7, 7, 7) before the call, is (1, 2, 3) after it. -/
theorem read_scene_flow_failure_changes_translation :
    read_scene_flow textFloats (oneFile "d/sflow_00000.xml" noRotationRecord)
        "d/sflow_00000.xml" (vec3 "7" "7" "7") (vec3 "7" "7" "7") []
      = some { read_ok := false, translation := vec3 "1" "2" "3", rotation := vec3 "7" "7" "7",
               residuals := [], heap := [] } ∧
    vec3 "1" "2" "3" ≠ vec3 "7" "7" "7" := by
  decide

/-! ## The cursor of `compute_scene_flow` -/

/-- A call of `compute_scene_flow` with the cursor at or beyond the end of the
frame sequence returns the state as it found it. -/
theorem compute_scene_flow_of_end {F : Type} (M : FloatModel F)
    (fs : String → Option TiXmlDocument) (st : ComputeState F)
    (h : st.self.m_scene_flow_file_names.length ≤ st.self.m_current_file_index) :
    compute_scene_flow M fs st = some st := by
  unfold compute_scene_flow
  rw [if_neg (Nat.not_lt.mpr h)]

/-- A call of `compute_scene_flow` with the cursor within the frame sequence, for
which `read_scene_flow` returns: the call returns with the outputs of the read
and the cursor advanced by one when the read returned true. -/
theorem compute_scene_flow_of_read {F : Type} (M : FloatModel F)
    (fs : String → Option TiXmlDocument) (st : ComputeState F) (r : SceneFlowResult F)
    (h : st.self.m_current_file_index < st.self.m_scene_flow_file_names.length)
    (hr : read_scene_flow M fs st.self.path_to_file st.translation st.rotation st.residuals
      = some r) :
    compute_scene_flow M fs st = some
      { self := { m_directory := st.self.m_directory,
                  m_scene_flow_file_names := st.self.m_scene_flow_file_names,
                  m_current_file_index :=
                    st.self.m_current_file_index + (if r.read_ok then 1 else 0) },
        translation := r.translation, rotation := r.rotation,
        residuals := r.residuals } := by
  unfold compute_scene_flow
  rw [if_pos h]
  cases hok : r.read_ok <;> simp [hr, hok]

/-- Claim C3. When the cursor is at or beyond the end of the frame sequence,
`compute_scene_flow` returns with the reader, and so the cursor, unchanged and
with the translation, rotation and residuals of the caller unchanged, whatever
the file system holds. -/
theorem compute_scene_flow_exhausted {F : Type} (M : FloatModel F)
    (fs : String → Option TiXmlDocument) (st : ComputeState F)
    (h : st.self.m_scene_flow_file_names.length ≤ st.self.m_current_file_index) :
    compute_scene_flow M fs st = some st := by
  unfold compute_scene_flow
  rw [if_neg (Nat.not_lt.mpr h)]

/-- Claim C3 at a reader with one file name and cursor 1. -/
theorem compute_scene_flow_exhausted_witness :
    compute_scene_flow textFloats (oneFile "d/sflow_00000.xml" goodRecord)
        { self := { m_directory := "d", m_scene_flow_file_names := ["sflow_00000.xml"],
                    m_current_file_index := 1 },
          translation := vec3 "7" "7" "7", rotation := vec3 "7" "7" "7", residuals := [] }
      = some
        { self := { m_directory := "d", m_scene_flow_file_names := ["sflow_00000.xml"],
                    m_current_file_index := 1 },
          translation := vec3 "7" "7" "7", rotation := vec3 "7" "7" "7", residuals := [] } :=
  compute_scene_flow_exhausted textFloats _ _ (by decide)

/-- Claim C4. One call of `compute_scene_flow`: beyond the end of the sequence it
changes nothing; within the sequence, whenever `read_scene_flow` returns, the
call returns with the cursor advanced by one when the read succeeded and by
nothing when it failed, and with the outputs the read left; and every call that
returns keeps the directory name and the frame sequence, and never moves the
cursor back. -/
theorem compute_scene_flow_cursor_step {F : Type} (M : FloatModel F)
    (fs : String → Option TiXmlDocument) (st : ComputeState F) :
    (st.self.m_scene_flow_file_names.length ≤ st.self.m_current_file_index →
      compute_scene_flow M fs st = some st) ∧
    (st.self.m_current_file_index < st.self.m_scene_flow_file_names.length →
      ∀ r, read_scene_flow M fs st.self.path_to_file st.translation st.rotation st.residuals
          = some r →
        compute_scene_flow M fs st = some
          { self := { m_directory := st.self.m_directory,
                      m_scene_flow_file_names := st.self.m_scene_flow_file_names,
                      m_current_file_index :=
                        st.self.m_current_file_index + (if r.read_ok then 1 else 0) },
            translation := r.translation, rotation := r.rotation,
            residuals := r.residuals }) ∧
    (∀ st', compute_scene_flow M fs st = some st' →
      st'.self.m_directory = st.self.m_directory ∧
      st'.self.m_scene_flow_file_names = st.self.m_scene_flow_file_names ∧
      st.self.m_current_file_index ≤ st'.self.m_current_file_index ∧
      st'.self.m_current_file_index ≤ st.self.m_current_file_index + 1) := by
  refine ⟨fun h => ?_, fun h r hr => ?_, fun st' h => ?_⟩
  · unfold compute_scene_flow
    rw [if_neg (Nat.not_lt.mpr h)]
  · unfold compute_scene_flow
    rw [if_pos h]
    cases hok : r.read_ok <;> simp [hr, hok]
  · unfold compute_scene_flow at h
    split at h
    · cases hr : read_scene_flow M fs st.self.path_to_file st.translation st.rotation
          st.residuals with
      | none => simp [hr] at h
      | some r =>
        cases hok : r.read_ok <;> simp [hr, hok] at h <;> subst h <;> simp
    · cases h
      simp

/-- After `j` calls on a reader whose frames all decode, for `j` up to the length
of the sequence, the calls have returned and the cursor is `j`. -/
theorem compute_scene_flow_n_cursor {F : Type} (M : FloatModel F)
    (fs : String → Option TiXmlDocument) (st : ComputeState F)
    (h0 : st.self.m_current_file_index = 0) (hwf : AllFramesDecode M fs st.self) :
    ∀ j, j ≤ st.self.m_scene_flow_file_names.length →
      ∃ st', compute_scene_flow_n M fs j st = some st' ∧
        st'.self = { m_directory := st.self.m_directory,
                     m_scene_flow_file_names := st.self.m_scene_flow_file_names,
                     m_current_file_index := j } := by
  intro j
  induction j with
  | zero =>
    intro _
    refine ⟨st, rfl, ?_⟩
    rw [← h0]
  | succ j ih =>
    intro hj
    obtain ⟨st', hrun, hself⟩ := ih (Nat.le_of_succ_le hj)
    have hlt : st'.self.m_current_file_index < st'.self.m_scene_flow_file_names.length := by
      rw [hself]
      exact hj
    obtain ⟨out, hread, hok⟩ := hwf j hj st'.translation st'.rotation st'.residuals
    have hpath : st'.self.path_to_file
        = st.self.m_directory ++ "/" ++ st.self.m_scene_flow_file_names.getD j "" := by
      rw [SRSFMockSceneFlowAlgorithm.path_to_file, hself]
    have hstep := compute_scene_flow_of_read M fs st' out hlt (hpath ▸ hread)
    have hcall : compute_scene_flow_n M fs (j + 1) st = compute_scene_flow M fs st' := by
      simp only [compute_scene_flow_n, hrun, Option.some_bind]
    rw [hcall, hstep]
    exact ⟨_, rfl, by simp [hok, hself]⟩

/-- On a reader with cursor 0 whose frame sequence has `k` files that
all decode, each of the first `k` calls of `compute_scene_flow` returns and
leaves the cursor at 1, 2, ..., `k` in turn, and any number of further calls
leaves the state exactly as the `k`-th call left it, the cursor remaining `k`. -/
theorem compute_scene_flow_n_sequence {F : Type} (M : FloatModel F)
    (fs : String → Option TiXmlDocument) (st : ComputeState F)
    (h0 : st.self.m_current_file_index = 0) (hwf : AllFramesDecode M fs st.self) :
    (∀ j, j ≤ st.self.m_scene_flow_file_names.length →
      ∃ st', compute_scene_flow_n M fs j st = some st' ∧
        st'.self = { m_directory := st.self.m_directory,
                     m_scene_flow_file_names := st.self.m_scene_flow_file_names,
                     m_current_file_index := j }) ∧
    (∀ m, ∃ st', compute_scene_flow_n M fs (st.self.m_scene_flow_file_names.length + m) st
          = some st' ∧
        compute_scene_flow_n M fs st.self.m_scene_flow_file_names.length st = some st' ∧
        st'.self.m_current_file_index = st.self.m_scene_flow_file_names.length) := by
  refine ⟨compute_scene_flow_n_cursor M fs st h0 hwf, fun m => ?_⟩
  obtain ⟨st', hrun, hself⟩ :=
    compute_scene_flow_n_cursor M fs st h0 hwf _ (Nat.le_refl _)
  refine ⟨st', ?_, hrun, by rw [hself]⟩
  induction m with
  | zero => exact hrun
  | succ m ih =>
    rw [← Nat.add_assoc]
    simp only [compute_scene_flow_n, ih, Option.some_bind]
    exact compute_scene_flow_of_end M fs st' (by rw [hself])

/-- The block of the translation either leaves the locals with `read_ok` false and
nothing else changed, or it ran with `read_ok` true, decoded a vector and stored
it as the translation. -/
theorem block_translation_cases {F : Type} {M : FloatModel F} {doc : TiXmlDocument}
    {l l' : ReadLocals F} (h : block_translation M doc l = some l') :
    l' = { l with read_ok := false } ∨
    (l.read_ok = true ∧ ∃ v, DecodesVector M doc "Translation" v ∧
      l' = { l with translation := v }) := by
  unfold block_translation at h
  split at h
  · rename_i hok
    split at h
    · cases h
    · cases h
      exact Or.inl rfl
    · rename_i element hel
      split at h
      · cases h
      · rename_i t ht
        split at h
        · rename_i htok
          cases h
          exact Or.inr ⟨hok, _, ⟨element, t, hel, ht, htok, rfl⟩, rfl⟩
        · cases h
          exact Or.inl rfl
  · rename_i hok
    cases h
    left
    cases l
    simp_all

/-- The block of the rotation either leaves the locals with `read_ok` false and
nothing else changed, or it ran with `read_ok` true, decoded a vector and stored
it as the rotation. -/
theorem block_rotation_cases {F : Type} {M : FloatModel F} {doc : TiXmlDocument}
    {l l' : ReadLocals F} (h : block_rotation M doc l = some l') :
    l' = { l with read_ok := false } ∨
    (l.read_ok = true ∧ ∃ v, DecodesVector M doc "Rotation" v ∧
      l' = { l with rotation := v }) := by
  unfold block_rotation at h
  split at h
  · rename_i hok
    split at h
    · cases h
    · cases h
      exact Or.inl rfl
    · rename_i element hel
      split at h
      · cases h
      · rename_i t ht
        split at h
        · rename_i htok
          cases h
          exact Or.inr ⟨hok, _, ⟨element, t, hel, ht, htok, rfl⟩, rfl⟩
        · cases h
          exact Or.inl rfl
  · rename_i hok
    cases h
    left
    cases l
    simp_all

/-- The block of the X residuals keeps the translation, the rotation and the
residuals of the caller, and does not set `read_ok`. -/
theorem block_x_frame {F : Type} {M : FloatModel F} {doc : TiXmlDocument}
    {l l' : ReadLocals F} (h : block_x M doc l = some l') :
    l'.translation = l.translation ∧ l'.rotation = l.rotation ∧
    l'.residuals = l.residuals ∧ (l'.read_ok = true → l.read_ok = true) := by
  unfold block_x at h
  split at h
  · rename_i hok
    split at h
    · cases h
    · split at h <;> cases h <;> simp [hok]
  · cases h
    simp

/-- The block of the Y residuals keeps the translation, the rotation and the
residuals of the caller, and does not set `read_ok`. -/
theorem block_y_frame {F : Type} {M : FloatModel F} {doc : TiXmlDocument}
    {l l' : ReadLocals F} (h : block_y M doc l = some l') :
    l'.translation = l.translation ∧ l'.rotation = l.rotation ∧
    l'.residuals = l.residuals ∧ (l'.read_ok = true → l.read_ok = true) := by
  unfold block_y at h
  split at h
  · rename_i hok
    split at h
    · cases h
    · split at h <;> cases h <;> simp [hok]
  · cases h
    simp

/-- The block of the Z residuals keeps the translation, the rotation and the
residuals of the caller, and does not set `read_ok`. -/
theorem block_z_frame {F : Type} {M : FloatModel F} {doc : TiXmlDocument}
    {l l' : ReadLocals F} (h : block_z M doc l = some l') :
    l'.translation = l.translation ∧ l'.rotation = l.rotation ∧
    l'.residuals = l.residuals ∧ (l'.read_ok = true → l.read_ok = true) := by
  unfold block_z at h
  split at h
  · rename_i hok
    split at h
    · cases h
    · split at h <;> cases h <;> simp [hok]
  · cases h
    simp

/-- The block that fills the matrix keeps the translation, the rotation and
`read_ok`, and changes nothing at all when `read_ok` is false. -/
theorem block_assemble_frame {F : Type} {l l' : ReadLocals F}
    (h : block_assemble l = some l') :
    l'.translation = l.translation ∧ l'.rotation = l.rotation ∧
    l'.read_ok = l.read_ok ∧ (l.read_ok = false → l' = l) := by
  unfold block_assemble at h
  split at h
  · rename_i hok
    simp only at h
    split at h
    · cases h
    · cases h
      simp [hok]
  · cases h
    simp

/-- A call of `read_scene_flow` that returns went through all the blocks. -/
theorem read_scene_flow_chain {F : Type} {M : FloatModel F}
    {fs : String → Option TiXmlDocument} {file_name : String}
    {translation rotation : Vector3f F} {residuals : ResidualMatrix F}
    {out : SceneFlowResult F}
    (h : read_scene_flow M fs file_name translation rotation residuals = some out) :
    ∃ l1 l2 l3 l4 l5 l6,
      block_translation M ((fs file_name).getD { RootElement := none })
        (ReadLocals.start (fs file_name).isSome translation rotation residuals) = some l1 ∧
      block_rotation M ((fs file_name).getD { RootElement := none }) l1 = some l2 ∧
      block_x M ((fs file_name).getD { RootElement := none }) l2 = some l3 ∧
      block_y M ((fs file_name).getD { RootElement := none }) l3 = some l4 ∧
      block_z M ((fs file_name).getD { RootElement := none }) l4 = some l5 ∧
      block_assemble l5 = some l6 ∧ out = l6.result := by
  simp only [read_scene_flow, Option.some_bind, Option.map_eq_some', Option.bind_eq_some] at h
  obtain ⟨l6, ⟨l5, ⟨l4, ⟨l3, ⟨l2, ⟨l1, h1, h2⟩, h3⟩, h4⟩, h5⟩, h6⟩, h7⟩ := h
  exact ⟨l1, l2, l3, l4, l5, l6, h1, h2, h3, h4, h5, h6, h7.symm⟩

/-- The block of the translation on a record whose `Translation` decodes. -/
theorem block_translation_decodes {F : Type} {M : FloatModel F} {doc : TiXmlDocument}
    {l : ReadLocals F} {v : Vector3f F} (hok : l.read_ok = true)
    (hv : DecodesVector M doc "Translation" v) :
    block_translation M doc l = some { l with translation := v } := by
  obtain ⟨element, t, hel, ht, htok, rfl⟩ := hv
  simp [block_translation, hok, hel, ht, htok]

/-- The block of the rotation on a record whose `Rotation` decodes. -/
theorem block_rotation_decodes {F : Type} {M : FloatModel F} {doc : TiXmlDocument}
    {l : ReadLocals F} {v : Vector3f F} (hok : l.read_ok = true)
    (hv : DecodesVector M doc "Rotation" v) :
    block_rotation M doc l = some { l with rotation := v } := by
  obtain ⟨element, t, hel, ht, htok, rfl⟩ := hv
  simp [block_rotation, hok, hel, ht, htok]

/-- Claim C5, amended. When `read_scene_flow` returns false the residuals of the
caller are as before the call. When the `Translation` of the loaded record
decodes, the translation holds the decoded values, and it is as before the call
otherwise. When both `Translation` and `Rotation` of the loaded record decode,
the rotation holds the decoded values, and it is as before the call
otherwise. -/
theorem read_scene_flow_failure_outputs {F : Type} (M : FloatModel F)
    (fs : String → Option TiXmlDocument) (file_name : String)
    (translation rotation : Vector3f F) (residuals : ResidualMatrix F)
    (out : SceneFlowResult F)
    (h : read_scene_flow M fs file_name translation rotation residuals = some out)
    (hfail : out.read_ok = false) :
    out.residuals = residuals ∧
    (∀ doc tv, fs file_name = some doc → DecodesVector M doc "Translation" tv →
      out.translation = tv) ∧
    ((¬ ∃ doc tv, fs file_name = some doc ∧ DecodesVector M doc "Translation" tv) →
      out.translation = translation) ∧
    (∀ doc tv rv, fs file_name = some doc → DecodesVector M doc "Translation" tv →
      DecodesVector M doc "Rotation" rv → out.rotation = rv) ∧
    ((¬ ∃ doc tv rv, fs file_name = some doc ∧ DecodesVector M doc "Translation" tv ∧
        DecodesVector M doc "Rotation" rv) →
      out.rotation = rotation) := by
  obtain ⟨l1, l2, l3, l4, l5, l6, h1, h2, h3, h4, h5, h6, rfl⟩ := read_scene_flow_chain h
  obtain ⟨t6, r6, ok6, same6⟩ := block_assemble_frame h6
  obtain ⟨t5, r5, res5, -⟩ := block_z_frame h5
  obtain ⟨t4, r4, res4, -⟩ := block_y_frame h4
  obtain ⟨t3, r3, res3, -⟩ := block_x_frame h3
  have hfail5 : l5.read_ok = false := by
    rw [← ok6]
    exact hfail
  have h65 : l6 = l5 := same6 hfail5
  subst h65
  have htr2 : l6.translation = l2.translation := by rw [t5, t4, t3]
  have hro2 : l6.rotation = l2.rotation := by rw [r5, r4, r3]
  have hres2 : l6.residuals = l2.residuals := by rw [res5, res4, res3]
  have h21 : l2.translation = l1.translation ∧ l2.residuals = l1.residuals := by
    rcases block_rotation_cases h2 with e | ⟨_, _, _, e⟩ <;> subst e <;> exact ⟨rfl, rfl⟩
  have h10 : l1.rotation = rotation ∧ l1.residuals = residuals := by
    rcases block_translation_cases h1 with e | ⟨_, _, _, e⟩ <;> subst e <;> exact ⟨rfl, rfl⟩
  have hloaded : (ReadLocals.start (fs file_name).isSome translation rotation
      residuals).read_ok = true →
      ∃ doc, fs file_name = some doc ∧ (fs file_name).getD { RootElement := none } = doc := by
    intro hl
    cases hfs : fs file_name with
    | none => simp [ReadLocals.start, hfs] at hl
    | some doc => exact ⟨doc, rfl, rfl⟩
  simp only [ReadLocals.result]
  refine ⟨by rw [hres2, h21.2, h10.2], ?_, ?_, ?_, ?_⟩
  · intro doc tv hfs hT
    rw [hfs] at h1
    simp only [Option.getD_some, Option.isSome_some] at h1
    rw [block_translation_decodes (l := ReadLocals.start true translation rotation residuals)
      rfl hT] at h1
    cases h1
    rw [htr2, h21.1]
  · intro hno
    rw [htr2, h21.1]
    rcases block_translation_cases h1 with e | ⟨ok0, v, hv, e⟩
    · subst e
      rfl
    · obtain ⟨doc, hfs, hd⟩ := hloaded ok0
      rw [hd] at hv
      exact absurd ⟨doc, v, hfs, hv⟩ hno
  · intro doc tv rv hfs hT hR
    rw [hfs] at h1 h2
    simp only [Option.getD_some, Option.isSome_some] at h1 h2
    rw [block_translation_decodes (l := ReadLocals.start true translation rotation residuals)
      rfl hT] at h1
    cases h1
    rw [block_rotation_decodes
      (l := { ReadLocals.start true translation rotation residuals with translation := tv })
      rfl hR] at h2
    cases h2
    rw [hro2]
  · intro hno
    rw [hro2]
    rcases block_rotation_cases h2 with e | ⟨ok1, w, hw, e⟩
    · subst e
      exact h10.1
    · rcases block_translation_cases h1 with e1 | ⟨ok0, v, hv, e1⟩
      · subst e1
        simp at ok1
      · obtain ⟨doc, hfs, hd⟩ := hloaded ok0
        rw [hd] at hv hw
        exact absurd ⟨doc, v, w, hfs, hv, hw⟩ hno

/-- Claim C5, amended, at the record whose `Rotation` has no `data` child: the
read fails, the matrix of the caller is as before, the translation holds the
decoded values (1, 2, 3), and the rotation is as before. -/
theorem read_scene_flow_failure_outputs_witness :
    read_scene_flow textFloats (oneFile "d/sflow_00000.xml" noRotationRecord)
        "d/sflow_00000.xml" (vec3 "7" "7" "7") (vec3 "7" "7" "7") []
      = some { read_ok := false, translation := vec3 "1" "2" "3",
               rotation := vec3 "7" "7" "7", residuals := [], heap := [] } ∧
    DecodesVector textFloats noRotationRecord "Translation" (vec3 "1" "2" "3") ∧
    ([] : ResidualMatrix String) = [] ∧
    vec3 "1" "2" "3" = vec3 "1" "2" "3" :=
  have hread : read_scene_flow textFloats (oneFile "d/sflow_00000.xml" noRotationRecord)
        "d/sflow_00000.xml" (vec3 "7" "7" "7") (vec3 "7" "7" "7") []
      = some { read_ok := false, translation := vec3 "1" "2" "3",
               rotation := vec3 "7" "7" "7", residuals := [], heap := [] } := by decide
  have hT : DecodesVector textFloats noRotationRecord "Translation" (vec3 "1" "2" "3") :=
    ⟨_, _, rfl, rfl, rfl, rfl⟩
  have hout := read_scene_flow_failure_outputs textFloats
    (oneFile "d/sflow_00000.xml" noRotationRecord) "d/sflow_00000.xml"
    (vec3 "7" "7" "7") (vec3 "7" "7" "7") []
    { read_ok := false, translation := vec3 "1" "2" "3", rotation := vec3 "7" "7" "7",
      residuals := [], heap := [] } hread rfl
  ⟨hread, hT, hout.1, hout.2.1 noRotationRecord (vec3 "1" "2" "3") rfl hT⟩

/-- A call of `read_scene_flow` on a loaded record whose `Translation` and
`Rotation` decode goes on to the blocks of the residuals with the two vectors
stored. -/
theorem read_scene_flow_of_vectors {F : Type} (M : FloatModel F)
    (fs : String → Option TiXmlDocument) (file_name : String) (doc : TiXmlDocument)
    (translation rotation : Vector3f F) (residuals : ResidualMatrix F)
    (tv rv : Vector3f F) (hdoc : fs file_name = some doc)
    (hT : DecodesVector M doc "Translation" tv) (hR : DecodesVector M doc "Rotation" rv) :
    read_scene_flow M fs file_name translation rotation residuals
      = ((((block_x M doc
            { read_ok := true, translation := tv, rotation := rv, residuals := residuals,
              width := 0, height := 0, residual_x := none, residual_y := none,
              residual_z := none, heap := [] }).bind
          (block_y M doc)).bind (block_z M doc)).bind block_assemble).map
        ReadLocals.result := by
  have e1 := block_translation_decodes
    (l := ReadLocals.start true translation rotation residuals) rfl hT
  have e2 := block_rotation_decodes
    (l := { ReadLocals.start true translation rotation residuals with translation := tv })
    rfl hR
  simp only [read_scene_flow, hdoc, Option.getD_some, Option.isSome_some, Option.some_bind,
    e1, e2]
  rfl

/-- Claim C6. For a record whose `Translation`, `Rotation` and `SFx` decode and
for which `read_residuals_node` resolves a width and a height for `SFy` and for
`SFz`: when one of these differs from the width or height of `SFx`,
`read_scene_flow` returns false with the matrix of residuals as before the
call, and `compute_scene_flow` on a reader whose cursor names the file returns
with the reader, and so the cursor, unchanged. -/
theorem read_scene_flow_dimension_mismatch {F : Type} (M : FloatModel F)
    (fs : String → Option TiXmlDocument) (file_name : String) (doc : TiXmlDocument)
    (translation rotation : Vector3f F) (residuals : ResidualMatrix F)
    (tv rv : Vector3f F) (x y z : ResidualsNode F)
    (hdoc : fs file_name = some doc)
    (hT : DecodesVector M doc "Translation" tv) (hR : DecodesVector M doc "Rotation" rv)
    (hx : read_residuals_node M doc (some "SFx") 0 0 = some x)
    (hxv : x.values.isSome = true)
    (hy : read_residuals_node M doc (some "SFy") 0 0 = some y)
    (hz : read_residuals_node M doc (some "SFz") 0 0 = some z)
    (hmis : y.width ≠ x.width ∨ y.height ≠ x.height ∨
      z.width ≠ x.width ∨ z.height ≠ x.height) :
    (∃ out, read_scene_flow M fs file_name translation rotation residuals = some out ∧
      out.read_ok = false ∧ out.residuals = residuals) ∧
    (∀ self : SRSFMockSceneFlowAlgorithm,
      self.m_current_file_index < self.m_scene_flow_file_names.length →
      self.path_to_file = file_name →
      ∃ st', compute_scene_flow M fs
          { self := self, translation := translation, rotation := rotation,
            residuals := residuals } = some st' ∧
        st'.self = self ∧ st'.residuals = residuals) := by
  have key : ∃ out, read_scene_flow M fs file_name translation rotation residuals = some out ∧
      out.read_ok = false ∧ out.residuals = residuals := by
    rw [read_scene_flow_of_vectors M fs file_name doc translation rotation residuals tv rv
      hdoc hT hR]
    have hxn : x.values.isNone = false := by
      cases hv : x.values with
      | none => simp [hv] at hxv
      | some _ => rfl
    by_cases hym : y.values.isNone = true ∨ y.width ≠ x.width ∨ y.height ≠ x.height
    · simp only [block_x, block_y, block_z, block_assemble, hx, hy, hxn, hym, if_true,
        Bool.false_eq_true, if_false, Option.some_bind, Option.map_some', ReadLocals.result]
      exact ⟨_, rfl, rfl, rfl⟩
    · have hzm : z.values.isNone = true ∨ z.width ≠ x.width ∨ z.height ≠ x.height := by
        rcases hmis with h | h | h | h
        · exact absurd (Or.inr (Or.inl h)) hym
        · exact absurd (Or.inr (Or.inr h)) hym
        · exact Or.inr (Or.inl h)
        · exact Or.inr (Or.inr h)
      simp only [block_x, block_y, block_z, block_assemble, hx, hy, hz, hxn, hym, hzm, if_true,
        Bool.false_eq_true, if_false, Option.some_bind, Option.map_some', ReadLocals.result]
      exact ⟨_, rfl, rfl, rfl⟩
  refine ⟨key, fun self hlt hpath => ?_⟩
  obtain ⟨out, hread, hok, hres⟩ := key
  have hstep := compute_scene_flow_of_read M fs
    { self := self, translation := translation, rotation := rotation,
      residuals := residuals } out hlt (by rw [hpath]; exact hread)
  rw [hstep]
  exact ⟨_, rfl, by simp [hok], hres⟩

/-! ## Well-formed records -/

/-- A natural number below 2^32 is kept by the conversion to `uint32_t`. -/
theorem toUInt32_natCast (n : Nat) (h : n < 4294967296) : toUInt32 (n : Int) = n := by
  unfold toUInt32
  omega

/-- A vector element that holds three numeric tokens decodes to their values. -/
theorem HoldsData.decodes {F : Type} {M : FloatModel F} {doc : TiXmlDocument} {tag : String}
    {toks : List (List Char)} (h : HoldsData M doc tag toks) (h3 : toks.length = 3) :
    DecodesVector M doc tag (Vector3f.ofArray (toks.map M.strtof)) := by
  obtain ⟨element, text, hel, htext, htoks⟩ := h
  have hread := read_floats_from_string_tokens M text toks [none, none, none]
    (by omega) htoks (by simp [h3])
  rw [h3] at hread
  refine ⟨element, _, hel, by rw [htext]; exact hread, rfl, ?_⟩
  simp [h3]

/-- A field with `rows` reading `R`, `cols` reading `C` and `R * C` numeric tokens
in its data, where `R * C` is positive and below 2^32: `read_residuals_node`
returns an array with the values of the tokens, `width = R` and `height = C`. -/
theorem read_residuals_node_tokens {F : Type} (M : FloatModel F) (doc : TiXmlDocument)
    (tag : String) (R C : Nat) (toks : List (List Char)) (width height : Nat)
    (hrows : HoldsInt doc tag "rows" R) (hcols : HoldsInt doc tag "cols" C)
    (hdata : HoldsData M doc tag toks) (hcount : toks.length = R * C)
    (hpos : 0 < R * C) (hlt : R * C < 4294967296) :
    read_residuals_node M doc (some tag) width height
      = some { values := some (toks.map M.strtof), width := R, height := C } := by
  obtain ⟨re, rtext, hre, hrt, hra⟩ := hrows
  obtain ⟨ce, ctext, hce, hct, hca⟩ := hcols
  obtain ⟨de, dtext, hde, hdt, hdtoks⟩ := hdata
  have hC : 0 < C := Nat.pos_of_ne_zero (fun h0 => by simp [h0] at hpos)
  have hR : 0 < R := Nat.pos_of_ne_zero (fun h0 => by simp [h0] at hpos)
  have hRlt : R < 4294967296 := lt_of_le_of_lt (Nat.le_mul_of_pos_right R hC) hlt
  have hClt : C < 4294967296 := lt_of_le_of_lt (Nat.le_mul_of_pos_left C hR) hlt
  have hmod : R * C % 4294967296 = R * C := Nat.mod_eq_of_lt hlt
  have hread := read_floats_from_string_tokens M dtext toks (List.replicate (R * C) none)
    (by omega) hdtoks (by simp [hcount])
  rw [hcount] at hread
  simp only [read_residuals_node, hre, hce, hde, hrt, hct, hdt, hra, hca, bind, Option.bind,
    toUInt32_natCast R hRlt, toUInt32_natCast C hClt, hmod, ne_eq, Nat.ne_of_gt hpos,
    not_false_eq_true, if_true, hread, pure]
  simp

/-- The matrix after `resize( 3, n )` has `n` columns. -/
theorem ResidualMatrix.length_resize {F : Type} (residuals : ResidualMatrix F) (n : Nat) :
    (ResidualMatrix.resize residuals n).length = n := by
  unfold ResidualMatrix.resize
  split
  · assumption
  · simp

/-- The copy loop over three arrays of `n` cells and a matrix of `n` columns, from
column `i` on: it returns, keeps the columns before `i`, and column `j` from
`i` on holds cell `j` of the three arrays. -/
theorem assemble_residuals_columns {F : Type} (x y z : FloatBuffer F) (n : Nat)
    (hx : x.length = n) (hy : y.length = n) (hz : z.length = n) :
    ∀ (k i : Nat) (res : ResidualMatrix F), i + k = n → res.length = n →
      ∃ res', assemble_residuals (some x) (some y) (some z) k i res = some res' ∧
        res'.length = n ∧
        (∀ j, j < i → res'[j]? = res[j]?) ∧
        (∀ j, i ≤ j → j < n → res'[j]?
          = some { c0 := x.getD j none, c1 := y.getD j none, c2 := z.getD j none }) := by
  intro k
  induction k with
  | zero =>
    intro i res hik hres
    exact ⟨res, rfl, hres, fun _ _ => rfl, fun j h1 h2 => by omega⟩
  | succ k ih =>
    intro i res hik hres
    have hi : i < n := by omega
    have hxi : x[i]? = some (x.getD i none) := by
      simp [List.getElem?_eq_getElem (hx ▸ hi)]
    have hyi : y[i]? = some (y.getD i none) := by
      simp [List.getElem?_eq_getElem (hy ▸ hi)]
    have hzi : z[i]? = some (z.getD i none) := by
      simp [List.getElem?_eq_getElem (hz ▸ hi)]
    obtain ⟨res', hrun, hlen, hbefore, hfrom⟩ :=
      ih (i + 1) (res.set i { c0 := x.getD i none, c1 := y.getD i none, c2 := z.getD i none })
        (by omega) (by rw [List.length_set]; exact hres)
    refine ⟨res', ?_, hlen, ?_, ?_⟩
    · simp only [assemble_residuals, hxi, hyi, hzi, hres, hi, if_true]
      exact hrun
    · intro j hj
      rw [hbefore j (by omega), List.getElem?_set_ne (by omega)]
    · intro j hij hjn
      rcases Nat.eq_or_lt_of_le hij with rfl | hlt
      · rw [hbefore i (by omega), List.getElem?_set_self (by omega)]
      · exact hfrom j hlt hjn

/-- A call of `read_scene_flow` on a well-formed record whose `R * C` is below
2^32: the call returns true, the two vectors hold the values of their tokens,
and the matrix has `R * C` columns, column `j` holding the values of the `j`-th
tokens of `SFx`, `SFy` and `SFz`. -/
theorem read_scene_flow_well_formed {F : Type} (M : FloatModel F)
    (fs : String → Option TiXmlDocument) (file_name : String) (doc : TiXmlDocument)
    (translation rotation : Vector3f F) (residuals : ResidualMatrix F) (R C : Nat)
    (t0 t1 t2 r0 r1 r2 : List Char) (xs ys zs : List (List Char))
    (hdoc : fs file_name = some doc)
    (hwf : WellFormedRecord M doc R C [t0, t1, t2] [r0, r1, r2] xs ys zs)
    (hlt : R * C < 4294967296) :
    ∃ res, read_scene_flow M fs file_name translation rotation residuals = some
        { read_ok := true,
          translation := { c0 := M.strtof t0, c1 := M.strtof t1, c2 := M.strtof t2 },
          rotation := { c0 := M.strtof r0, c1 := M.strtof r1, c2 := M.strtof r2 },
          residuals := res,
          heap := [HeapEvent.alloc "residual_x", HeapEvent.alloc "residual_y",
                   HeapEvent.alloc "residual_z"] } ∧
      res.length = R * C ∧
      ∀ j (hx : j < xs.length) (hy : j < ys.length) (hz : j < zs.length),
        res[j]? = some { c0 := M.strtof xs[j], c1 := M.strtof ys[j], c2 := M.strtof zs[j] } := by
  obtain ⟨hxr, hxc, hxd, hxn⟩ := hwf.x_field
  obtain ⟨hyr, hyc, hyd, hyn⟩ := hwf.y_field
  obtain ⟨hzr, hzc, hzd, hzn⟩ := hwf.z_field
  have nx := read_residuals_node_tokens M doc "SFx" R C xs 0 0 hxr hxc hxd hxn hwf.positive hlt
  have ny := read_residuals_node_tokens M doc "SFy" R C ys 0 0 hyr hyc hyd hyn hwf.positive hlt
  have nz := read_residuals_node_tokens M doc "SFz" R C zs 0 0 hzr hzc hzd hzn hwf.positive hlt
  obtain ⟨res, hrun, hlen, -, hcols⟩ :=
    assemble_residuals_columns (xs.map M.strtof) (ys.map M.strtof) (zs.map M.strtof) (R * C)
      (by simp [hxn]) (by simp [hyn]) (by simp [hzn]) (R * C) 0
      (ResidualMatrix.resize residuals (R * C)) (by omega)
      (ResidualMatrix.length_resize residuals (R * C))
  refine ⟨res, ?_, hlen, ?_⟩
  · rw [read_scene_flow_of_vectors M fs file_name doc translation rotation residuals _ _ hdoc
      (hwf.translation.1.decodes hwf.translation.2) (hwf.rotation.1.decodes hwf.rotation.2)]
    simp only [block_x, block_y, block_z, block_assemble, nx, ny, nz, if_true,
      Option.isNone_some, Bool.false_eq_true, ne_eq, not_true_eq_false, or_self, if_false,
      Option.some_bind, Nat.mod_eq_of_lt hlt, hrun, Option.map_some', ReadLocals.result]
    rfl
  · intro j hx hy hz
    rw [hcols j (Nat.zero_le j) (by rw [← hxn]; exact hx)]
    simp [hx, hy, hz]

/-- Decoding below the bound of 32 bit arithmetic. For a well-formed
record, whose dimensions `atoi` reads as `R` and `C`, with `R * C` below 2^32,
`read_scene_flow` returns true, the translation
holds the values of the three `Translation` tokens in order, the rotation those
of the three `Rotation` tokens, and the matrix of residuals has `R * C` columns,
column `j` holding the values of the `j`-th tokens of `SFx`, `SFy` and `SFz`. -/
theorem read_scene_flow_decodes_record {F : Type} (M : FloatModel F)
    (fs : String → Option TiXmlDocument) (file_name : String) (doc : TiXmlDocument)
    (translation rotation : Vector3f F) (residuals : ResidualMatrix F) (R C : Nat)
    (t0 t1 t2 r0 r1 r2 : List Char) (xs ys zs : List (List Char))
    (hdoc : fs file_name = some doc)
    (hwf : WellFormedRecord M doc R C [t0, t1, t2] [r0, r1, r2] xs ys zs)
    (hlt : R * C < 4294967296) :
    ∃ out, read_scene_flow M fs file_name translation rotation residuals = some out ∧
      out.read_ok = true ∧
      out.translation = { c0 := M.strtof t0, c1 := M.strtof t1, c2 := M.strtof t2 } ∧
      out.rotation = { c0 := M.strtof r0, c1 := M.strtof r1, c2 := M.strtof r2 } ∧
      out.residuals.length = R * C ∧
      (∀ j (hx : j < xs.length) (hy : j < ys.length) (hz : j < zs.length),
        out.residuals[j]?
          = some { c0 := M.strtof xs[j], c1 := M.strtof ys[j], c2 := M.strtof zs[j] }) ∧
      (∀ t ∈ [t0, t1, t2] ++ [r0, r1, r2] ++ xs ++ ys ++ zs, (M.strtof t).isSome = true) := by
  obtain ⟨res, hread, hlen, hcols⟩ := read_scene_flow_well_formed M fs file_name doc
    translation rotation residuals R C t0 t1 t2 r0 r1 r2 xs ys zs hdoc hwf hlt
  refine ⟨_, hread, rfl, rfl, rfl, hlen, hcols, ?_⟩
  obtain ⟨_, _, _, _, hT⟩ := hwf.translation.1
  obtain ⟨_, _, _, _, hR⟩ := hwf.rotation.1
  obtain ⟨_, _, _, _, hX⟩ := hwf.x_field.2.2.1
  obtain ⟨_, _, _, _, hY⟩ := hwf.y_field.2.2.1
  obtain ⟨_, _, _, _, hZ⟩ := hwf.z_field.2.2.1
  intro t ht
  simp only [List.mem_append] at ht
  rcases ht with (((ht | ht) | ht) | ht) | ht
  · exact (hT.numeric t ht).2.2
  · exact (hR.numeric t ht).2.2
  · exact (hX.numeric t ht).2.2
  · exact (hY.numeric t ht).2.2
  · exact (hZ.numeric t ht).2.2

/-- The element `<tag><data>text</data></tag>` of a record holds the tokens of a
text written with single spaces. -/
theorem holdsData_spaced {F : Type} (M : FloatModel F) (children : List TiXmlNode)
    (tag text : String) (toks : List (List Char))
    (hel : childElement (recordOf children) tag "data" = some (some (.element "data" [.text text])))
    (htext : text.toList = spaced toks) (hnum : ∀ t ∈ toks, NumericToken M t) :
    HoldsData M (recordOf children) tag toks :=
  ⟨_, text, hel, rfl, htext ▸ holdsTokens_spaced M toks hnum⟩

/-- The record `goodRecord` is well-formed, with a 2 by 2 grid. -/
theorem goodRecord_well_formed :
    WellFormedRecord textFloats goodRecord 2 2
      ["1".toList, "2".toList, "3".toList] ["0".toList, "0".toList, "0".toList]
      ["1".toList, "2".toList, "3".toList, "4".toList]
      ["5".toList, "6".toList, "7".toList, "8".toList]
      ["9".toList, "10".toList, "11".toList, "12".toList] where
  translation := ⟨holdsData_spaced _ _ _ "1 2 3" _ rfl rfl (by decide), rfl⟩
  rotation := ⟨holdsData_spaced _ _ _ "0 0 0" _ rfl rfl (by decide), rfl⟩
  x_field := ⟨⟨_, "2", rfl, rfl, by decide⟩, ⟨_, "2", rfl, rfl, by decide⟩,
    holdsData_spaced _ _ _ "1 2 3 4" _ rfl rfl (by decide), rfl⟩
  y_field := ⟨⟨_, "2", rfl, rfl, by decide⟩, ⟨_, "2", rfl, rfl, by decide⟩,
    holdsData_spaced _ _ _ "5 6 7 8" _ rfl rfl (by decide), rfl⟩
  z_field := ⟨⟨_, "2", rfl, rfl, by decide⟩, ⟨_, "2", rfl, rfl, by decide⟩,
    holdsData_spaced _ _ _ "9 10 11 12" _ rfl rfl (by decide), rfl⟩
  positive := by decide

/-- The decoding of the 2 by 2 record `goodRecord`. -/
theorem read_scene_flow_decodes_record_witness :
    ∃ out, read_scene_flow textFloats (oneFile "d/sflow_00000.xml" goodRecord)
        "d/sflow_00000.xml" (vec3 "7" "7" "7") (vec3 "7" "7" "7") [] = some out ∧
      out.read_ok = true ∧ out.translation = vec3 "1" "2" "3" ∧
      out.rotation = vec3 "0" "0" "0" ∧ out.residuals.length = 4 ∧
      out.residuals[1]? = some (vec3 "2" "6" "10") :=
  (read_scene_flow_decodes_record textFloats (oneFile "d/sflow_00000.xml" goodRecord)
      "d/sflow_00000.xml" goodRecord (vec3 "7" "7" "7") (vec3 "7" "7" "7") [] 2 2
      _ _ _ _ _ _ _ _ _ rfl goodRecord_well_formed (by decide)).imp
    (fun _ h => ⟨h.1, h.2.1, h.2.2.1, h.2.2.2.1, h.2.2.2.2.1,
      h.2.2.2.2.2.1 1 (by decide) (by decide) (by decide)⟩)

/-- The record `wideRecord` is well-formed, with `R = C = 65536` and 2^32 numeric
tokens in the data of each field. -/
theorem wideRecord_well_formed :
    WellFormedRecord textFloats wideRecord 65536 65536
      ["1".toList, "2".toList, "3".toList] ["0".toList, "0".toList, "0".toList]
      (List.replicate 4294967296 ['0']) (List.replicate 4294967296 ['0'])
      (List.replicate 4294967296 ['0']) := by
  have hzero : ∀ t ∈ List.replicate 4294967296 ['0'], NumericToken textFloats t := by
    intro t ht
    rw [List.eq_of_mem_replicate ht]
    decide
  have hcount : (List.replicate 4294967296 ['0']).length = 65536 * 65536 := by
    rw [List.length_replicate]
  exact
    { translation := ⟨holdsData_spaced _ _ _ "1 2 3" _ rfl rfl (by decide), rfl⟩
      rotation := ⟨holdsData_spaced _ _ _ "0 0 0" _ rfl rfl (by decide), rfl⟩
      x_field := ⟨⟨_, "65536", rfl, rfl, by decide⟩, ⟨_, "65536", rfl, rfl, by decide⟩,
        holdsData_spaced _ _ _ wideText _ rfl rfl hzero, hcount⟩
      y_field := ⟨⟨_, "65536", rfl, rfl, by decide⟩, ⟨_, "65536", rfl, rfl, by decide⟩,
        holdsData_spaced _ _ _ wideText _ rfl rfl hzero, hcount⟩
      z_field := ⟨⟨_, "65536", rfl, rfl, by decide⟩, ⟨_, "65536", rfl, rfl, by decide⟩,
        holdsData_spaced _ _ _ wideText _ rfl rfl hzero, hcount⟩
      positive := by decide }

/-- Claim C7, evaluated. The record `wideRecord` is well-formed with
`R = C = 65536`, and `read_scene_flow` returns false on it with the matrix of
residuals untouched, the 32 bit product `width * height` being 0 where
`R * C` is 2^32. -/
theorem read_scene_flow_rejects_wide_record :
    WellFormedRecord textFloats wideRecord 65536 65536
      ["1".toList, "2".toList, "3".toList] ["0".toList, "0".toList, "0".toList]
      (List.replicate 4294967296 ['0']) (List.replicate 4294967296 ['0'])
      (List.replicate 4294967296 ['0']) ∧
    read_scene_flow textFloats (oneFile "d/sflow_00000.xml" wideRecord) "d/sflow_00000.xml"
        (vec3 "7" "7" "7") (vec3 "7" "7" "7") []
      = some { read_ok := false, translation := vec3 "1" "2" "3", rotation := vec3 "0" "0" "0",
               residuals := [], heap := [] } :=
  ⟨wideRecord_well_formed, by decide⟩

/-- Claim C2, evaluated. For the reader over the one frame file `wideRecord`, a
well-formed record with `R = C = 65536`, with the cursor at 0: the first call
of `compute_scene_flow` returns with the cursor still 0 and an empty matrix, and
so does every later call; the cursor never reaches 1. -/
theorem compute_scene_flow_stalls_on_wide_record :
    WellFormedRecord textFloats wideRecord 65536 65536
      ["1".toList, "2".toList, "3".toList] ["0".toList, "0".toList, "0".toList]
      (List.replicate 4294967296 ['0']) (List.replicate 4294967296 ['0'])
      (List.replicate 4294967296 ['0']) ∧
    oneFrameReader.m_scene_flow_file_names.length = 1 ∧
    oneFrameReader.m_current_file_index = 0 ∧
    ∀ n, compute_scene_flow_n textFloats (oneFile "d/sflow_00000.xml" wideRecord) (n + 1)
        (callerState oneFrameReader)
      = some { self := oneFrameReader, translation := vec3 "1" "2" "3",
               rotation := vec3 "0" "0" "0", residuals := [] } := by
  have hfirst : compute_scene_flow textFloats (oneFile "d/sflow_00000.xml" wideRecord)
      (callerState oneFrameReader)
      = some { self := oneFrameReader, translation := vec3 "1" "2" "3",
               rotation := vec3 "0" "0" "0", residuals := [] } := by
    decide
  have hagain : compute_scene_flow textFloats (oneFile "d/sflow_00000.xml" wideRecord)
      { self := oneFrameReader, translation := vec3 "1" "2" "3",
        rotation := vec3 "0" "0" "0", residuals := [] }
      = some { self := oneFrameReader, translation := vec3 "1" "2" "3",
               rotation := vec3 "0" "0" "0", residuals := [] } := by
    decide
  refine ⟨wideRecord_well_formed, rfl, rfl, fun n => ?_⟩
  induction n with
  | zero =>
    simp only [compute_scene_flow_n, Option.some_bind]
    exact hfirst
  | succ n ih =>
    rw [compute_scene_flow_n, ih, Option.some_bind]
    exact hagain

/-- A reader all of whose frame files are well-formed records with `R * C` below
2^32 is a reader whose frames all decode. -/
theorem allFramesDecode_of_well_formed {F : Type} (M : FloatModel F)
    (fs : String → Option TiXmlDocument) (self : SRSFMockSceneFlowAlgorithm)
    (h : ∀ i, i < self.m_scene_flow_file_names.length →
      ∃ doc R C t0 t1 t2 r0 r1 r2 xs ys zs,
        fs (self.m_directory ++ "/" ++ self.m_scene_flow_file_names.getD i "") = some doc ∧
        WellFormedRecord M doc R C [t0, t1, t2] [r0, r1, r2] xs ys zs ∧
        R * C < 4294967296) :
    AllFramesDecode M fs self := by
  intro i hi t r res
  obtain ⟨doc, R, C, t0, t1, t2, r0, r1, r2, xs, ys, zs, hdoc, hwf, hlt⟩ := h i hi
  obtain ⟨out, hread, _⟩ := read_scene_flow_well_formed M fs _ doc t r res R C
    t0 t1 t2 r0 r1 r2 xs ys zs hdoc hwf hlt
  exact ⟨_, hread, rfl⟩

/-- The two frames of `twoFrames` decode. -/
theorem twoFrames_decode : AllFramesDecode textFloats twoFrames twoFramesReader := by
  apply allFramesDecode_of_well_formed
  intro i hi
  have hi2 : i < 2 := hi
  have hdoc : twoFrames (twoFramesReader.m_directory ++ "/" ++
      twoFramesReader.m_scene_flow_file_names.getD i "") = some goodRecord := by
    interval_cases i <;> rfl
  exact ⟨goodRecord, 2, 2, _, _, _, _, _, _, _, _, _, hdoc, goodRecord_well_formed,
    by decide⟩

/-- The run of calls over the two frames of `twoFrames`: the cursor goes to 1 and
to 2, and stays at 2. -/
theorem compute_scene_flow_n_sequence_witness :
    (∀ j, j ≤ 2 →
      ∃ st', compute_scene_flow_n textFloats twoFrames j
          { self := twoFramesReader, translation := vec3 "7" "7" "7",
            rotation := vec3 "7" "7" "7", residuals := [] } = some st' ∧
        st'.self = { m_directory := "d",
                     m_scene_flow_file_names := ["sflow_00000.xml", "sflow_00001.xml"],
                     m_current_file_index := j }) ∧
    (∀ m, ∃ st', compute_scene_flow_n textFloats twoFrames (2 + m)
          { self := twoFramesReader, translation := vec3 "7" "7" "7",
            rotation := vec3 "7" "7" "7", residuals := [] } = some st' ∧
        compute_scene_flow_n textFloats twoFrames 2
          { self := twoFramesReader, translation := vec3 "7" "7" "7",
            rotation := vec3 "7" "7" "7", residuals := [] } = some st' ∧
        st'.self.m_current_file_index = 2) :=
  compute_scene_flow_n_sequence textFloats twoFrames
    { self := twoFramesReader, translation := vec3 "7" "7" "7",
      rotation := vec3 "7" "7" "7", residuals := [] } rfl twoFrames_decode

/-- Claim C6 at the record `mismatchRecord`, whose `SFy` has height 2 where `SFx`
has height 1. -/
theorem read_scene_flow_dimension_mismatch_witness :
    (∃ out, read_scene_flow textFloats (oneFile "d/sflow_00000.xml" mismatchRecord)
        "d/sflow_00000.xml" (vec3 "7" "7" "7") (vec3 "7" "7" "7") [] = some out ∧
      out.read_ok = false ∧ out.residuals = []) ∧
    (∀ self : SRSFMockSceneFlowAlgorithm,
      self.m_current_file_index < self.m_scene_flow_file_names.length →
      self.path_to_file = "d/sflow_00000.xml" →
      ∃ st', compute_scene_flow textFloats (oneFile "d/sflow_00000.xml" mismatchRecord)
          { self := self, translation := vec3 "7" "7" "7", rotation := vec3 "7" "7" "7",
            residuals := [] } = some st' ∧
        st'.self = self ∧ st'.residuals = []) :=
  read_scene_flow_dimension_mismatch textFloats (oneFile "d/sflow_00000.xml" mismatchRecord)
    "d/sflow_00000.xml" mismatchRecord (vec3 "7" "7" "7") (vec3 "7" "7" "7") []
    (vec3 "1" "2" "3") (vec3 "0" "0" "0")
    { values := some [some "4"], width := 1, height := 1 }
    { values := some [some "5", some "6"], width := 1, height := 2 }
    { values := some [some "9"], width := 1, height := 1 }
    rfl ⟨_, _, rfl, rfl, rfl, rfl⟩ ⟨_, _, rfl, rfl, rfl, rfl⟩ (by decide) rfl (by decide)
    (by decide) (Or.inr (Or.inl (by decide)))

/-! ## Calls of `read_floats_from_string` with nothing to read or nowhere to store -/

/-- Claim C11. A call of `read_floats_from_string` with `num_floats = 0` returns
true and leaves the array behind `read_values` as it was, whatever the text is,
the null text and the empty text included; it writes the warning for a count of
zero, behind the warning for a null array when `read_values` is null. -/
theorem read_floats_from_string_zero {F : Type} (M : FloatModel F) (string : Option String)
    (read_values : Option (FloatBuffer F)) :
    read_floats_from_string M string 0 read_values
      = some { read_ok := true, read_values := read_values,
               log := (if read_values.isNone then [Diagnostic.nullReadValues] else []) ++
                 [Diagnostic.zeroNumFloats] } := by
  simp only [read_floats_from_string, if_true]

/-- Claim C12, evaluated. With a null `read_values`, a text that is not null and a
positive count, the first iteration of the loop finds the stream good and
executes `iss >> read_values[0]` through the null pointer: the call has no
result, where the same call with a present array returns true. -/
theorem read_floats_from_string_null_values :
    (∀ (F : Type) (M : FloatModel F) (string : String) (n : Nat),
      read_floats_from_string M (some string) (n + 1) none = none) ∧
    read_floats_from_string textFloats (some "1") 1 none = none ∧
    read_floats_from_string textFloats (some "1") 1 (some [none])
      = some { read_ok := true, read_values := some [some "1"], log := [] } := by
  refine ⟨fun F M string n => ?_, by decide, by decide⟩
  simp [read_floats_from_string, read_floats_loop, IStringStream.open, IStringStream.good]

/-! ## The array returned by `read_residuals_node` -/

/-- Claim C13, evaluated. For a field without `data` child `read_residuals_node`
returns an array whose one cell was never written, and for a field whose data
holds one number where two are needed it returns an array whose second cell
was never written; it returns no null pointer in either case. -/
theorem read_residuals_node_returns_unfilled :
    read_residuals_node textFloats noDataRecord (some "SFx") 0 0
      = some { values := some [none], width := 1, height := 1 } ∧
    read_residuals_node textFloats shortDataRecord (some "SFx") 0 0
      = some { values := some [some "4", none], width := 2, height := 1 } := by
  decide

/-! ## Release of the residual arrays -/

/-- Claim C17, evaluated. For a record whose `SFy` has other dimensions than
`SFx`, `read_scene_flow` returns false having allocated `residual_x` and
`residual_y` and released `residual_x` only; for a record whose `SFz` has other
dimensions, it returns false having allocated the three arrays and released
`residual_x` and `residual_y` only. -/
theorem read_scene_flow_leaks_mismatched_array :
    (read_scene_flow textFloats (oneFile "d/sflow_00000.xml" mismatchRecord)
        "d/sflow_00000.xml" (vec3 "7" "7" "7") (vec3 "7" "7" "7") []).map
      (fun out => (out.read_ok, out.heap))
      = some (false, [HeapEvent.alloc "residual_x", HeapEvent.alloc "residual_y",
                      HeapEvent.free "residual_x"]) ∧
    (read_scene_flow textFloats (oneFile "d/sflow_00000.xml" mismatchZRecord)
        "d/sflow_00000.xml" (vec3 "7" "7" "7") (vec3 "7" "7" "7") []).map
      (fun out => (out.read_ok, out.heap))
      = some (false, [HeapEvent.alloc "residual_x", HeapEvent.alloc "residual_y",
                      HeapEvent.alloc "residual_z", HeapEvent.free "residual_x",
                      HeapEvent.free "residual_y"]) := by
  decide

/-! ## Fields with a count of zero -/

/-- A field whose resolved width and height have the 32 bit product 0:
`read_residuals_node` returns a null pointer with the two dimensions stored,
whatever the `data` child is. -/
theorem read_residuals_node_count_zero {F : Type} (M : FloatModel F) (doc : TiXmlDocument)
    (tag : String) (w h width height : Nat)
    (hw : ResolvesDimension doc tag "rows" w) (hh : ResolvesDimension doc tag "cols" h)
    (hzero : w * h % 4294967296 = 0) :
    read_residuals_node M doc (some tag) width height
      = some { values := none, width := w, height := h } := by
  obtain ⟨rt, ri, ⟨re, hre, hrt⟩, hra, rfl⟩ := hw
  obtain ⟨ct, ci, ⟨ce, hce, hct⟩, hca, rfl⟩ := hh
  simp only [read_residuals_node, hre, hce, hrt, hct, hra, hca, bind, Option.bind, hzero,
    ne_eq, not_true_eq_false, if_false, pure]

/-- When the block of the X residuals leaves `read_ok` true, it ran and
`read_residuals_node` returned an array for `SFx`, with the dimensions stored. -/
theorem block_x_ok {F : Type} {M : FloatModel F} {doc : TiXmlDocument}
    {l l' : ReadLocals F} (h : block_x M doc l = some l') (hok : l'.read_ok = true) :
    l.read_ok = true ∧
    ∃ x, read_residuals_node M doc (some "SFx") l.width l.height = some x ∧
      x.values.isSome = true ∧ l'.width = x.width ∧ l'.height = x.height := by
  unfold block_x at h
  split at h
  · rename_i hl
    split at h
    · cases h
    · rename_i x hx
      split at h
      · cases h
        simp at hok
      · rename_i hnone
        cases h
        refine ⟨hl, x, hx, ?_, rfl, rfl⟩
        cases hv : x.values with
        | none => simp [hv] at hnone
        | some _ => rfl
  · rename_i hl
    cases h
    exact absurd hok hl

/-- When the block of the Y residuals leaves `read_ok` true, it ran and
`read_residuals_node` returned an array for `SFy` with the width and height of
the locals, which the block keeps. -/
theorem block_y_ok {F : Type} {M : FloatModel F} {doc : TiXmlDocument}
    {l l' : ReadLocals F} (h : block_y M doc l = some l') (hok : l'.read_ok = true) :
    l.read_ok = true ∧ l'.width = l.width ∧ l'.height = l.height ∧
    ∃ y, read_residuals_node M doc (some "SFy") 0 0 = some y ∧
      y.values.isSome = true ∧ y.width = l.width ∧ y.height = l.height := by
  unfold block_y at h
  split at h
  · rename_i hl
    split at h
    · cases h
    · rename_i y hy
      split at h
      · cases h
        simp at hok
      · rename_i hcond
        cases h
        refine ⟨hl, rfl, rfl, y, hy, ?_, ?_, ?_⟩
        · cases hv : y.values with
          | none => exact absurd (Or.inl (by simp [hv])) hcond
          | some _ => rfl
        · exact Classical.not_not.mp (fun hne => hcond (Or.inr (Or.inl hne)))
        · exact Classical.not_not.mp (fun hne => hcond (Or.inr (Or.inr hne)))
  · rename_i hl
    cases h
    exact absurd hok hl

/-- When the block of the Z residuals leaves `read_ok` true, it ran and
`read_residuals_node` returned an array for `SFz` with the width and height of
the locals, which the block keeps. -/
theorem block_z_ok {F : Type} {M : FloatModel F} {doc : TiXmlDocument}
    {l l' : ReadLocals F} (h : block_z M doc l = some l') (hok : l'.read_ok = true) :
    l.read_ok = true ∧ l'.width = l.width ∧ l'.height = l.height ∧
    ∃ z, read_residuals_node M doc (some "SFz") 0 0 = some z ∧
      z.values.isSome = true ∧ z.width = l.width ∧ z.height = l.height := by
  unfold block_z at h
  split at h
  · rename_i hl
    split at h
    · cases h
    · rename_i z hz
      split at h
      · cases h
        simp at hok
      · rename_i hcond
        cases h
        refine ⟨hl, rfl, rfl, z, hz, ?_, ?_, ?_⟩
        · cases hv : z.values with
          | none => exact absurd (Or.inl (by simp [hv])) hcond
          | some _ => rfl
        · exact Classical.not_not.mp (fun hne => hcond (Or.inr (Or.inl hne)))
        · exact Classical.not_not.mp (fun hne => hcond (Or.inr (Or.inr hne)))
  · rename_i hl
    cases h
    exact absurd hok hl

/-- A call of `read_scene_flow` that returns true loaded a document for which
`read_residuals_node` returned an array for each of `SFx`, `SFy` and `SFz`, the
three with the same width and height. -/
theorem read_scene_flow_ok_nodes {F : Type} {M : FloatModel F}
    {fs : String → Option TiXmlDocument} {file_name : String}
    {translation rotation : Vector3f F} {residuals : ResidualMatrix F}
    {out : SceneFlowResult F}
    (h : read_scene_flow M fs file_name translation rotation residuals = some out)
    (hok : out.read_ok = true) :
    ∃ doc x y z, fs file_name = some doc ∧
      read_residuals_node M doc (some "SFx") 0 0 = some x ∧ x.values.isSome = true ∧
      read_residuals_node M doc (some "SFy") 0 0 = some y ∧ y.values.isSome = true ∧
      read_residuals_node M doc (some "SFz") 0 0 = some z ∧ z.values.isSome = true ∧
      y.width = x.width ∧ y.height = x.height ∧ z.width = x.width ∧ z.height = x.height := by
  obtain ⟨l1, l2, l3, l4, l5, l6, h1, h2, h3, h4, h5, h6, rfl⟩ := read_scene_flow_chain h
  obtain ⟨-, -, ok6, -⟩ := block_assemble_frame h6
  have ok5 : l5.read_ok = true := by
    rw [← ok6]
    exact hok
  obtain ⟨ok4, w5, h5', z, hz, hzv, hzw, hzh⟩ := block_z_ok h5 ok5
  obtain ⟨ok3, w4, h4', y, hy, hyv, hyw, hyh⟩ := block_y_ok h4 ok4
  obtain ⟨ok2, x, hx, hxv, w3, h3'⟩ := block_x_ok h3 ok3
  rcases block_rotation_cases h2 with e2 | ⟨ok1, _, _, e2⟩
  · rw [e2] at ok2
    simp at ok2
  rcases block_translation_cases h1 with e1 | ⟨ok0, _, _, e1⟩
  · rw [e1] at ok1
    simp at ok1
  cases hfs : fs file_name with
  | none => simp [ReadLocals.start, hfs] at ok0
  | some doc =>
    rw [hfs] at hx hy hz
    simp only [Option.getD_some] at hx hy hz
    subst e2
    subst e1
    simp only [ReadLocals.start] at hx
    refine ⟨doc, x, y, z, rfl, hx, hxv, hy, hyv, hz, hzv, ?_, ?_, ?_, ?_⟩
    · rw [hyw, w3]
    · rw [hyh, h3']
    · rw [hzw, w4, w3]
    · rw [hzh, h4', h3']

/-- Claim C19. For a field whose resolved width and height give the count
`width * height = 0`: `read_residuals_node` returns a null pointer, whatever the
`data` child of the field is; when the field is `SFx`, `SFy` or `SFz` of a
loaded record, every call of `read_scene_flow` that returns has returned false;
and when the field is `SFx` of a record whose `Translation` and `Rotation`
decode, `read_scene_flow` does return, false and without any allocation. -/
theorem read_residuals_node_zero_entries {F : Type} (M : FloatModel F) (doc : TiXmlDocument)
    (tag : String) (w h : Nat)
    (hw : ResolvesDimension doc tag "rows" w) (hh : ResolvesDimension doc tag "cols" h)
    (hzero : w * h % 4294967296 = 0) :
    (∀ width height, read_residuals_node M doc (some tag) width height
      = some { values := none, width := w, height := h }) ∧
    (tag = "SFx" ∨ tag = "SFy" ∨ tag = "SFz" →
      ∀ (fs : String → Option TiXmlDocument) (file_name : String)
        (translation rotation : Vector3f F) (residuals : ResidualMatrix F)
        (out : SceneFlowResult F), fs file_name = some doc →
        read_scene_flow M fs file_name translation rotation residuals = some out →
        out.read_ok = false) ∧
    (tag = "SFx" →
      ∀ (fs : String → Option TiXmlDocument) (file_name : String)
        (translation rotation tv rv : Vector3f F) (residuals : ResidualMatrix F),
        fs file_name = some doc → DecodesVector M doc "Translation" tv →
        DecodesVector M doc "Rotation" rv →
        ∃ out, read_scene_flow M fs file_name translation rotation residuals = some out ∧
          out.read_ok = false ∧ out.heap = []) := by
  have hnode := read_residuals_node_count_zero M doc tag w h
  refine ⟨fun width height => hnode width height hw hh hzero, ?_, ?_⟩
  · intro htag fs file_name translation rotation residuals out hdoc hread
    cases hok : out.read_ok with
    | false => rfl
    | true =>
      obtain ⟨doc', x, y, z, hdoc', hx, hxv, hy, hyv, hz, hzv, -⟩ :=
        read_scene_flow_ok_nodes hread hok
      have hd : doc' = doc := by
        rw [hdoc] at hdoc'
        exact (Option.some.inj hdoc').symm
      subst hd
      have hn := hnode 0 0 hw hh hzero
      rcases htag with rfl | rfl | rfl
      · rw [hn] at hx
        cases hx
        simp at hxv
      · rw [hn] at hy
        cases hy
        simp at hyv
      · rw [hn] at hz
        cases hz
        simp at hzv
  · intro htag fs file_name translation rotation tv rv residuals hdoc hT hR
    subst htag
    rw [read_scene_flow_of_vectors M fs file_name doc translation rotation residuals tv rv
      hdoc hT hR]
    simp only [block_x, block_y, block_z, block_assemble, hnode 0 0 hw hh hzero, if_true,
      Option.isNone_none, Bool.false_eq_true, if_false, Option.some_bind, Option.map_some',
      ReadLocals.result, allocated, Option.isSome_none, List.append_nil]
    exact ⟨_, rfl, rfl, rfl⟩

/-- Claim C19 at the record `zeroRowsRecord`, whose `SFx` has `rows` 0 and `cols` 3. -/
theorem read_residuals_node_zero_entries_witness :
    (∀ width height, read_residuals_node textFloats zeroRowsRecord (some "SFx") width height
      = some { values := none, width := 0, height := 3 }) ∧
    (∃ out, read_scene_flow textFloats (oneFile "d/sflow_00000.xml" zeroRowsRecord)
        "d/sflow_00000.xml" (vec3 "7" "7" "7") (vec3 "7" "7" "7") [] = some out ∧
      out.read_ok = false ∧ out.heap = []) :=
  have h := read_residuals_node_zero_entries textFloats zeroRowsRecord "SFx" 0 3
    ⟨"0", 0, ⟨_, rfl, rfl⟩, by decide, by decide⟩ ⟨"3", 3, ⟨_, rfl, rfl⟩, by decide, by decide⟩
    (by decide)
  ⟨h.1, h.2.2 rfl (oneFile "d/sflow_00000.xml" zeroRowsRecord) "d/sflow_00000.xml"
    (vec3 "7" "7" "7") (vec3 "7" "7" "7") (vec3 "1" "2" "3") (vec3 "0" "0" "0") [] rfl
    ⟨_, _, rfl, rfl, rfl, rfl⟩ ⟨_, _, rfl, rfl, rfl, rfl⟩⟩

/-! ## Dimensions that are no numbers -/

/-- The C `atoi` reads 0 from a text without a digit where a number would start. -/
theorem atoi_startsWithoutDigit (text : String) (h : startsWithoutDigit text = true) :
    atoi text = some 0 := by
  unfold startsWithoutDigit at h
  unfold atoi
  cases hs : text.toList.dropWhile isspace with
  | nil => simp
  | cons c cs =>
    rw [hs] at h
    simp only at h ⊢
    by_cases hsign : (c == '-' || c == '+') = true
    · rw [if_pos hsign] at h
      have hc : c = '-' ∨ c = '+' := by simpa using hsign
      cases cs with
      | nil =>
        rcases hc with rfl | rfl <;> simp [atoiDigits]
      | cons d ds =>
        simp only [Bool.not_eq_true'] at h
        rcases hc with rfl | rfl <;> simp [atoiDigits, h]
    · rw [if_neg hsign] at h
      simp only [Bool.or_eq_true, not_or, Bool.not_eq_true] at hsign
      simp only [Bool.not_eq_true'] at h
      simp [hsign.1, hsign.2, atoiDigits, h]

/-- Claim C20 fails as stated: for a field without `rows` child and for a field
whose `rows` child has no text `read_residuals_node` has no result, a null
pointer being dereferenced; and for the `rows` text "2x", which is no decimal
integer, it takes the width 2 and returns an array. -/
theorem read_residuals_node_missing_dimension :
    read_residuals_node textFloats noRowsRecord (some "SFx") 0 0 = none ∧
    read_residuals_node textFloats emptyRowsRecord (some "SFx") 0 0 = none ∧
    read_residuals_node textFloats digitWordRowsRecord (some "SFx") 0 0
      = some { values := some [some "4", some "5"], width := 2, height := 1 } := by
  decide

/-- Claim C20, amended. For a field whose `rows` and `cols` children are there
with a text each, neither text making `atoi` overflow: when one of the texts
has no digit where a number would start, `read_residuals_node` returns, takes
that dimension as zero and returns a null pointer. -/
theorem read_residuals_node_unparsable_dimension {F : Type} (M : FloatModel F)
    (doc : TiXmlDocument) (tag row_text col_text : String) (width height : Nat)
    (hrt : DimensionText doc tag "rows" row_text)
    (hct : DimensionText doc tag "cols" col_text)
    (hr : (atoi row_text).isSome = true) (hc : (atoi col_text).isSome = true)
    (hbad : startsWithoutDigit row_text = true ∨ startsWithoutDigit col_text = true) :
    ∃ w h, read_residuals_node M doc (some tag) width height
        = some { values := none, width := w, height := h } ∧
      (startsWithoutDigit row_text = true → w = 0) ∧
      (startsWithoutDigit col_text = true → h = 0) := by
  obtain ⟨ri, hri⟩ := Option.isSome_iff_exists.mp hr
  obtain ⟨ci, hci⟩ := Option.isSome_iff_exists.mp hc
  have hw0 : startsWithoutDigit row_text = true → toUInt32 ri = 0 := by
    intro hb
    rw [atoi_startsWithoutDigit row_text hb] at hri
    cases hri
    rfl
  have hh0 : startsWithoutDigit col_text = true → toUInt32 ci = 0 := by
    intro hb
    rw [atoi_startsWithoutDigit col_text hb] at hci
    cases hci
    rfl
  refine ⟨toUInt32 ri, toUInt32 ci, ?_, hw0, hh0⟩
  apply read_residuals_node_count_zero M doc tag _ _ width height
    ⟨row_text, ri, hrt, hri, rfl⟩ ⟨col_text, ci, hct, hci, rfl⟩
  rcases hbad with hb | hb
  · rw [hw0 hb]
    simp
  · rw [hh0 hb]
    simp

/-- Claim C20, amended, at the record `wordRowsRecord`, whose `SFx` has the `rows`
text "abc" and the `cols` text "3". -/
theorem read_residuals_node_unparsable_dimension_witness :
    ∃ w h, read_residuals_node textFloats wordRowsRecord (some "SFx") 0 0
        = some { values := none, width := w, height := h } ∧
      (startsWithoutDigit "abc" = true → w = 0) ∧
      (startsWithoutDigit "3" = true → h = 0) :=
  read_residuals_node_unparsable_dimension textFloats wordRowsRecord "SFx" "abc" "3" 0 0
    ⟨_, rfl, rfl⟩ ⟨_, rfl, rfl⟩ (by decide) (by decide) (Or.inl (by decide))

/-! ## The 32 bit product of the dimensions -/

/-- A number read by `atoi` is an `int`, so below 2^32. -/
theorem atoi_natCast_lt (text : String) (n : Nat) (h : atoi text = some (n : Int)) :
    n < 4294967296 := by
  unfold atoi at h
  simp only at h
  split at h
  · rename_i hrange
    rw [Option.some.injEq] at h
    rw [h] at hrange
    omega
  · cases h

/-- A field with `rows` reading `R`, `cols` reading `C` and, in its data, as many
numeric tokens as the 32 bit product of `R` and `C`, which is not 0:
`read_residuals_node` returns an array with the values of these tokens,
`width = R` and `height = C`. -/
theorem read_residuals_node_wrapped_tokens {F : Type} (M : FloatModel F)
    (doc : TiXmlDocument) (tag : String) (R C : Nat) (toks : List (List Char))
    (width height : Nat)
    (hrows : HoldsInt doc tag "rows" R) (hcols : HoldsInt doc tag "cols" C)
    (hdata : HoldsData M doc tag toks) (hcount : toks.length = R * C % 4294967296)
    (hpos : 0 < R * C % 4294967296) :
    read_residuals_node M doc (some tag) width height
      = some { values := some (toks.map M.strtof), width := R, height := C } := by
  obtain ⟨re, rtext, hre, hrt, hra⟩ := hrows
  obtain ⟨ce, ctext, hce, hct, hca⟩ := hcols
  obtain ⟨de, dtext, hde, hdt, hdtoks⟩ := hdata
  have hRlt : R < 4294967296 := atoi_natCast_lt rtext R hra
  have hClt : C < 4294967296 := atoi_natCast_lt ctext C hca
  have hread := read_floats_from_string_tokens M dtext toks
    (List.replicate (R * C % 4294967296) none) (by omega) hdtoks (by simp [hcount])
  rw [hcount] at hread
  simp only [read_residuals_node, hre, hce, hde, hrt, hct, hdt, hra, hca, bind, Option.bind,
    toUInt32_natCast R hRlt, toUInt32_natCast C hClt, ne_eq, Nat.ne_of_gt hpos,
    not_false_eq_true, if_true, hread, pure]
  simp

/-- A call of `read_scene_flow` on a record whose vectors hold three numeric
tokens each and whose three fields have `rows` reading `R`, `cols` reading `C`
and as many numeric tokens as the 32 bit product of `R` and `C`, which is not
0: the call returns true and the matrix has that many columns. -/
theorem read_scene_flow_wrapped {F : Type} (M : FloatModel F)
    (fs : String → Option TiXmlDocument) (file_name : String) (doc : TiXmlDocument)
    (translation rotation : Vector3f F) (residuals : ResidualMatrix F) (R C : Nat)
    (t0 t1 t2 r0 r1 r2 : List Char) (xs ys zs : List (List Char))
    (hdoc : fs file_name = some doc)
    (hT : HoldsData M doc "Translation" [t0, t1, t2])
    (hR : HoldsData M doc "Rotation" [r0, r1, r2])
    (hx : HoldsInt doc "SFx" "rows" R ∧ HoldsInt doc "SFx" "cols" C ∧
      HoldsData M doc "SFx" xs ∧ xs.length = R * C % 4294967296)
    (hy : HoldsInt doc "SFy" "rows" R ∧ HoldsInt doc "SFy" "cols" C ∧
      HoldsData M doc "SFy" ys ∧ ys.length = R * C % 4294967296)
    (hz : HoldsInt doc "SFz" "rows" R ∧ HoldsInt doc "SFz" "cols" C ∧
      HoldsData M doc "SFz" zs ∧ zs.length = R * C % 4294967296)
    (hpos : 0 < R * C % 4294967296) :
    ∃ res, read_scene_flow M fs file_name translation rotation residuals = some
        { read_ok := true,
          translation := { c0 := M.strtof t0, c1 := M.strtof t1, c2 := M.strtof t2 },
          rotation := { c0 := M.strtof r0, c1 := M.strtof r1, c2 := M.strtof r2 },
          residuals := res,
          heap := [HeapEvent.alloc "residual_x", HeapEvent.alloc "residual_y",
                   HeapEvent.alloc "residual_z"] } ∧
      res.length = R * C % 4294967296 := by
  obtain ⟨hxr, hxc, hxd, hxn⟩ := hx
  obtain ⟨hyr, hyc, hyd, hyn⟩ := hy
  obtain ⟨hzr, hzc, hzd, hzn⟩ := hz
  have nx := read_residuals_node_wrapped_tokens M doc "SFx" R C xs 0 0 hxr hxc hxd hxn hpos
  have ny := read_residuals_node_wrapped_tokens M doc "SFy" R C ys 0 0 hyr hyc hyd hyn hpos
  have nz := read_residuals_node_wrapped_tokens M doc "SFz" R C zs 0 0 hzr hzc hzd hzn hpos
  obtain ⟨res, hrun, hlen, -, -⟩ :=
    assemble_residuals_columns (xs.map M.strtof) (ys.map M.strtof) (zs.map M.strtof)
      (R * C % 4294967296) (by simp [hxn]) (by simp [hyn]) (by simp [hzn])
      (R * C % 4294967296) 0 (ResidualMatrix.resize residuals (R * C % 4294967296))
      (by omega) (ResidualMatrix.length_resize residuals (R * C % 4294967296))
  refine ⟨res, ?_, hlen⟩
  rw [read_scene_flow_of_vectors M fs file_name doc translation rotation residuals _ _ hdoc
    (hT.decodes rfl) (hR.decodes rfl)]
  simp only [block_x, block_y, block_z, block_assemble, nx, ny, nz, if_true,
    Option.isNone_some, Bool.false_eq_true, ne_eq, not_true_eq_false, or_self, if_false,
    Option.some_bind, hrun, Option.map_some', ReadLocals.result]
  rfl

/-- Claim C18, evaluated. For the field `SFx` of `wrapRecord`, with `rows` 65536
and `cols` 65537, `read_residuals_node` returns `width = 65536`,
`height = 65537` and an array of 65536 values, where the product of `rows` and
`cols` is 4295032832; and `read_scene_flow` returns true on the record with a
matrix of 65536 columns. -/
theorem read_residuals_node_wraps_count :
    read_residuals_node textFloats wrapRecord (some "SFx") 0 0
      = some { values := some (List.replicate 65536 (some "0")),
               width := 65536, height := 65537 } ∧
    (List.replicate 65536 (some "0")).length = 65536 ∧ 65536 * 65537 = 4295032832 ∧
    ∃ res, read_scene_flow textFloats (oneFile "d/sflow_00000.xml" wrapRecord)
        "d/sflow_00000.xml" (vec3 "7" "7" "7") (vec3 "7" "7" "7") [] = some
          { read_ok := true, translation := vec3 "1" "2" "3", rotation := vec3 "0" "0" "0",
            residuals := res,
            heap := [HeapEvent.alloc "residual_x", HeapEvent.alloc "residual_y",
                     HeapEvent.alloc "residual_z"] } ∧
      res.length = 65536 := by
  have hzero : ∀ t ∈ List.replicate 65536 ['0'], NumericToken textFloats t := by
    intro t ht
    rw [List.eq_of_mem_replicate ht]
    decide
  have hcount : (List.replicate 65536 ['0']).length = 65536 * 65537 % 4294967296 := by
    rw [List.length_replicate]
  have hfield : ∀ tag, tag = "SFx" ∨ tag = "SFy" ∨ tag = "SFz" →
      HoldsInt wrapRecord tag "rows" 65536 ∧ HoldsInt wrapRecord tag "cols" 65537 ∧
      HoldsData textFloats wrapRecord tag (List.replicate 65536 ['0']) ∧
      (List.replicate 65536 ['0']).length = 65536 * 65537 % 4294967296 := by
    intro tag htag
    rcases htag with rfl | rfl | rfl
    · exact ⟨⟨_, "65536", rfl, rfl, by decide⟩, ⟨_, "65537", rfl, rfl, by decide⟩,
        holdsData_spaced _ _ _ wrapText _ rfl rfl hzero, hcount⟩
    · exact ⟨⟨_, "65536", rfl, rfl, by decide⟩, ⟨_, "65537", rfl, rfl, by decide⟩,
        holdsData_spaced _ _ _ wrapText _ rfl rfl hzero, hcount⟩
    · exact ⟨⟨_, "65536", rfl, rfl, by decide⟩, ⟨_, "65537", rfl, rfl, by decide⟩,
        holdsData_spaced _ _ _ wrapText _ rfl rfl hzero, hcount⟩
  obtain ⟨hxr, hxc, hxd, hxn⟩ := hfield "SFx" (Or.inl rfl)
  refine ⟨?_, List.length_replicate _ _, by decide, ?_⟩
  · rw [read_residuals_node_wrapped_tokens textFloats wrapRecord "SFx" 65536 65537
      (List.replicate 65536 ['0']) 0 0 hxr hxc hxd hxn (by decide), List.map_replicate]
    rfl
  · exact read_scene_flow_wrapped textFloats (oneFile "d/sflow_00000.xml" wrapRecord)
      "d/sflow_00000.xml" wrapRecord (vec3 "7" "7" "7") (vec3 "7" "7" "7") [] 65536 65537
      "1".toList "2".toList "3".toList "0".toList "0".toList "0".toList _ _ _ rfl
      (holdsData_spaced _ _ _ "1 2 3" _ rfl rfl (by decide))
      (holdsData_spaced _ _ _ "0 0 0" _ rfl rfl (by decide))
      (hfield "SFx" (Or.inl rfl)) (hfield "SFy" (Or.inr (Or.inl rfl)))
      (hfield "SFz" (Or.inr (Or.inr rfl))) (by decide)

/-! ## The filter of frame file names -/

/-- A decimal digit is a character with a code from 48 to 57. -/
theorem isDigit_iff_toNat (x : Char) : x.isDigit = true ↔ 48 ≤ x.toNat ∧ x.toNat ≤ 57 := by
  unfold Char.isDigit Char.toNat
  simp only [ge_iff_le, Bool.and_eq_true, decide_eq_true_eq]
  rw [UInt32.le_def, UInt32.le_def, BitVec.le_def, BitVec.le_def]
  rfl

/-- The lower case form of a character is a digit only when the character is. -/
theorem toLower_digit (x : Char) :
    (48 ≤ x.toLower.toNat ∧ x.toLower.toNat ≤ 57) ↔ (48 ≤ x.toNat ∧ x.toNat ≤ 57) := by
  by_cases h : 65 ≤ x.toNat ∧ x.toNat ≤ 90
  · obtain ⟨h1, h2⟩ := h
    have hx : x = Char.ofNat x.toNat := (Char.ofNat_toNat x).symm
    rw [hx]
    interval_cases x.toNat <;> decide
  · have hsame : x.toLower = x := by
      unfold Char.toLower
      simp only [ge_iff_le]
      rw [if_neg h]
    rw [hsame]

/-- The upper case form of a character is a digit only when the character is. -/
theorem toUpper_digit (x : Char) :
    (48 ≤ x.toUpper.toNat ∧ x.toUpper.toNat ≤ 57) ↔ (48 ≤ x.toNat ∧ x.toNat ≤ 57) := by
  by_cases h : 97 ≤ x.toNat ∧ x.toNat ≤ 122
  · obtain ⟨h1, h2⟩ := h
    have hx : x = Char.ofNat x.toNat := (Char.ofNat_toNat x).symm
    rw [hx]
    interval_cases x.toNat <;> decide
  · have hsame : x.toUpper = x := by
      unfold Char.toUpper
      simp only [ge_iff_le]
      rw [if_neg h]
    rw [hsame]

/-- Without regard to case, the range `[0-9]` matches the decimal digits. -/
theorem accepts_digit_range (x : Char) :
    (RegexAtom.range '0' '9').accepts true x = true ↔ x.isDigit = true := by
  have h0 : ('0' : Char).toNat = 48 := by decide
  have h9 : ('9' : Char).toNat = 57 := by decide
  simp only [RegexAtom.accepts, if_true, h0, h9, Bool.or_eq_true, Bool.and_eq_true,
    decide_eq_true_eq, toLower_digit, toUpper_digit, or_self, isDigit_iff_toNat]

/-- A run of `n` repetitions of `[0-9]` at the head of a pattern takes `n` digits
from the head of the text. -/
theorem regex_match_atoms_digits (rest : List (RegexAtom × Nat)) :
    ∀ (n : Nat) (s : List Char),
      regex_match_atoms true ((RegexAtom.range '0' '9', n) :: rest) s = true ↔
        ∃ digits r, s = digits ++ r ∧ digits.length = n ∧
          (∀ d ∈ digits, d.isDigit = true) ∧ regex_match_atoms true rest r = true := by
  intro n
  induction n with
  | zero =>
    intro s
    simp only [regex_match_atoms, regex_consume]
    constructor
    · intro h
      exact ⟨[], s, rfl, rfl, by simp, h⟩
    · rintro ⟨digits, r, rfl, hlen, -, hr⟩
      rw [List.length_eq_zero.mp hlen]
      exact hr
  | succ n ih =>
    intro s
    cases s with
    | nil =>
      simp only [regex_match_atoms, regex_consume]
      constructor
      · intro h
        cases h
      · rintro ⟨digits, r, hs, hlen, -, -⟩
        cases digits with
        | nil => simp at hlen
        | cons d ds => simp at hs
    | cons c cs =>
      have hstep : regex_match_atoms true ((RegexAtom.range '0' '9', n + 1) :: rest) (c :: cs)
          = ((RegexAtom.range '0' '9').accepts true c &&
              regex_match_atoms true ((RegexAtom.range '0' '9', n) :: rest) cs) := by
        simp only [regex_match_atoms, regex_consume]
        cases (RegexAtom.range '0' '9').accepts true c <;> simp
      rw [hstep, Bool.and_eq_true, accepts_digit_range, ih cs]
      constructor
      · rintro ⟨hc, digits, r, rfl, hlen, hdig, hr⟩
        refine ⟨c :: digits, r, rfl, by simp [hlen], ?_, hr⟩
        intro d hd
        rcases List.mem_cons.mp hd with rfl | hmem
        · exact hc
        · exact hdig d hmem
      · rintro ⟨digits, r, hs, hlen, hdig, hr⟩
        cases digits with
        | nil => simp at hlen
        | cons d ds =>
          simp only [List.cons_append, List.cons.injEq] at hs
          obtain ⟨rfl, rfl⟩ := hs
          exact ⟨hdig c (List.mem_cons_self c ds), ds, r, rfl, by simpa using hlen,
            fun x hx => hdig x (List.mem_cons_of_mem c hx), hr⟩

/-- A run of single characters at the head of a pattern takes, without regard to
case, these characters from the head of the text. -/
theorem regex_match_atoms_chars (rest : List (RegexAtom × Nat)) :
    ∀ (lits s : List Char),
      regex_match_atoms true (lits.map (fun c => (RegexAtom.char c, 1)) ++ rest) s = true ↔
        ∃ p r, s = p ++ r ∧ p.map Char.toLower = lits.map Char.toLower ∧
          regex_match_atoms true rest r = true := by
  intro lits
  induction lits with
  | nil =>
    intro s
    simp only [List.map_nil, List.nil_append, List.map_eq_nil_iff]
    constructor
    · intro h
      exact ⟨[], s, rfl, rfl, h⟩
    · rintro ⟨p, r, rfl, rfl, hr⟩
      exact hr
  | cons c lits ih =>
    intro s
    cases s with
    | nil =>
      simp only [List.map_cons, List.cons_append, regex_match_atoms, regex_consume]
      constructor
      · intro h
        cases h
      · rintro ⟨p, r, hs, hp, -⟩
        cases p with
        | nil => simp at hp
        | cons x xs => simp at hs
    | cons x xs =>
      have hstep : regex_match_atoms true
            ((c :: lits).map (fun c => (RegexAtom.char c, 1)) ++ rest) (x :: xs)
          = ((x.toLower == c.toLower) &&
              regex_match_atoms true (lits.map (fun c => (RegexAtom.char c, 1)) ++ rest) xs) := by
        simp only [List.map_cons, List.cons_append, regex_match_atoms, regex_consume,
          RegexAtom.accepts, if_true]
        cases (x.toLower == c.toLower) <;> simp
      rw [hstep, Bool.and_eq_true, beq_iff_eq, ih xs]
      constructor
      · rintro ⟨hx, p, r, rfl, hp, hr⟩
        exact ⟨x :: p, r, rfl, by simp [hx, hp], hr⟩
      · rintro ⟨p, r, hs, hp, hr⟩
        cases p with
        | nil => simp at hp
        | cons y ys =>
          simp only [List.cons_append, List.cons.injEq] at hs
          obtain ⟨rfl, rfl⟩ := hs
          simp only [List.map_cons, List.cons.injEq] at hp
          exact ⟨hp.1, ys, r, rfl, hp.2, hr⟩

/-- The filter of the constructor accepts the frame file names of the
specification, and only these. -/
theorem is_valid_iff (name : String) : is_valid name = true ↔ IsFrameFileName name := by
  have hregex : scene_flow_filename_regex
      = "sflow_".toList.map (fun c => (RegexAtom.char c, 1)) ++
          ((RegexAtom.range '0' '9', 5) ::
            (".xml".toList.map (fun c => (RegexAtom.char c, 1)) ++ [])) := by
    decide
  have hhead : "sflow_".toList.map Char.toLower = "sflow_".toList := by decide
  have htail : ".xml".toList.map Char.toLower = ".xml".toList := by decide
  unfold is_valid regex_match IsFrameFileName
  rw [hregex, regex_match_atoms_chars]
  constructor
  · rintro ⟨head, r, hs, hh, hr⟩
    rw [regex_match_atoms_digits] at hr
    obtain ⟨digits, r', rfl, hlen, hdig, hr'⟩ := hr
    rw [regex_match_atoms_chars] at hr'
    obtain ⟨tail, r'', rfl, ht, hend⟩ := hr'
    simp only [regex_match_atoms, List.isEmpty_iff] at hend
    subst hend
    refine ⟨head, digits, tail, ?_, by rw [hh, hhead], hlen, hdig, by rw [ht, htail]⟩
    rw [hs]
    simp
  · rintro ⟨head, digits, tail, hs, hh, hlen, hdig, ht⟩
    refine ⟨head, digits ++ tail, by rw [hs]; simp, by rw [hh, hhead], ?_⟩
    rw [regex_match_atoms_digits]
    refine ⟨digits, tail, rfl, hlen, hdig, ?_⟩
    rw [regex_match_atoms_chars]
    exact ⟨tail, [], by simp, by rw [ht, htail], rfl⟩

/-! ## The order of the frame sequence -/

/-- Of two strings, one is not before the other. -/
theorem chars_lt_total : ∀ a b : List Char, chars_lt b a = false ∨ chars_lt a b = false := by
  intro a
  induction a with
  | nil =>
    intro b
    cases b with
    | nil => exact Or.inl rfl
    | cons y ys => exact Or.inl rfl
  | cons x xs ih =>
    intro b
    cases b with
    | nil => exact Or.inr rfl
    | cons y ys =>
      simp only [chars_lt]
      by_cases h1 : x.toNat < y.toNat
      · left
        rw [if_neg (by omega), if_pos h1]
      · by_cases h2 : y.toNat < x.toNat
        · right
          rw [if_neg h1, if_pos h2]
        · rw [if_neg h2, if_neg h1, if_neg h1, if_neg h2]
          exact ih ys

/-- The relation "not after" on strings is transitive. -/
theorem chars_le_trans : ∀ a b c : List Char,
    chars_lt b a = false → chars_lt c b = false → chars_lt c a = false := by
  intro a
  induction a with
  | nil =>
    intro b c hba hcb
    cases c with
    | nil => rfl
    | cons z zs => rfl
  | cons x xs ih =>
    intro b c hba hcb
    cases b with
    | nil => simp [chars_lt] at hba
    | cons y ys =>
      cases c with
      | nil => simp [chars_lt] at hcb
      | cons z zs =>
        simp only [chars_lt] at hba hcb ⊢
        by_cases hyx : y.toNat < x.toNat
        · rw [if_pos hyx] at hba
          cases hba
        · rw [if_neg hyx] at hba
          by_cases hzy : z.toNat < y.toNat
          · rw [if_pos hzy] at hcb
            cases hcb
          · rw [if_neg hzy] at hcb
            by_cases hxy : x.toNat < y.toNat
            · rw [if_neg (by omega), if_pos (by omega)]
            · rw [if_neg hxy] at hba
              by_cases hyz : y.toNat < z.toNat
              · rw [if_neg (by omega), if_pos (by omega)]
              · rw [if_neg hyz] at hcb
                rw [if_neg (by omega), if_neg (by omega)]
                exact ih ys zs hba hcb

/-- The result of `std_sort` ascends and is a rearrangement of the names. -/
theorem std_sort_sorted_perm (names : List String) :
    List.Sorted string_le (std_sort names) ∧ List.Perm (std_sort names) names := by
  refine ⟨?_, List.perm_insertionSort string_le names⟩
  exact @List.sorted_insertionSort String string_le _
    ⟨fun a b => chars_lt_total a.toList b.toList⟩
    ⟨fun a b c hab hbc => chars_le_trans a.toList b.toList c.toList hab hbc⟩ names

/-- No string is before itself. -/
theorem chars_lt_irrefl : ∀ a : List Char, chars_lt a a = false := by
  intro a
  induction a with
  | nil => rfl
  | cons x xs ih =>
    simp only [chars_lt, Nat.lt_irrefl, if_false]
    exact ih

/-- A common head does not change the order of two strings. -/
theorem chars_lt_append_left (p x y : List Char) :
    chars_lt (p ++ x) (p ++ y) = chars_lt x y := by
  induction p with
  | nil => rfl
  | cons c p ih =>
    simp only [List.cons_append, chars_lt, Nat.lt_irrefl, if_false]
    exact ih

/-- A common tail behind heads of the same length does not change the order of
two strings. -/
theorem chars_lt_append_right (t : List Char) :
    ∀ x y : List Char, x.length = y.length → chars_lt (x ++ t) (y ++ t) = chars_lt x y := by
  intro x
  induction x with
  | nil =>
    intro y hlen
    cases y with
    | nil => exact chars_lt_irrefl t
    | cons b bs => simp at hlen
  | cons a as ih =>
    intro y hlen
    cases y with
    | nil => simp at hlen
    | cons b bs =>
      have hrec : chars_lt (as.append t) (bs.append t) = chars_lt as bs :=
        ih bs (by simpa using hlen)
      simp only [List.cons_append, chars_lt]
      rw [hrec]

/-- Reading digits onto an accumulator shifts the accumulator by their number. -/
theorem atoiDigits_acc : ∀ (ds : List Char) (acc : Nat), (∀ d ∈ ds, d.isDigit = true) →
    atoiDigits acc ds = acc * 10 ^ ds.length + atoiDigits 0 ds := by
  intro ds
  induction ds with
  | nil =>
    intro acc _
    simp [atoiDigits]
  | cons c cs ih =>
    intro acc hd
    have hc : c.isDigit = true := hd c (List.mem_cons_self c cs)
    have hcs : ∀ d ∈ cs, d.isDigit = true := fun d h => hd d (List.mem_cons_of_mem c h)
    simp only [atoiDigits, hc, if_true, List.length_cons]
    rw [ih (acc * 10 + (c.toNat - 48)) hcs, ih (0 * 10 + (c.toNat - 48)) hcs]
    ring

/-- The number written by `n` digits is below `10 ^ n`. -/
theorem atoiDigits_lt : ∀ ds : List Char, (∀ d ∈ ds, d.isDigit = true) →
    atoiDigits 0 ds < 10 ^ ds.length := by
  intro ds
  induction ds with
  | nil =>
    intro _
    simp [atoiDigits]
  | cons c cs ih =>
    intro hd
    have hc : c.isDigit = true := hd c (List.mem_cons_self c cs)
    have hcs : ∀ d ∈ cs, d.isDigit = true := fun d h => hd d (List.mem_cons_of_mem c h)
    have hrange := (isDigit_iff_toNat c).mp hc
    have hlt := ih hcs
    simp only [atoiDigits, hc, if_true, List.length_cons]
    rw [atoiDigits_acc cs _ hcs, Nat.pow_succ]
    have hmul : (0 * 10 + (c.toNat - 48)) * 10 ^ cs.length ≤ 9 * 10 ^ cs.length :=
      Nat.mul_le_mul_right _ (by omega)
    omega

/-- Of two runs of digits of the same length, the one that comes first as a
string writes the smaller number. -/
theorem chars_lt_digits : ∀ da db : List Char, da.length = db.length →
    (∀ d ∈ da, d.isDigit = true) → (∀ d ∈ db, d.isDigit = true) →
    (chars_lt da db = true ↔ atoiDigits 0 da < atoiDigits 0 db) := by
  intro da
  induction da with
  | nil =>
    intro db hlen _ _
    cases db with
    | nil => simp [chars_lt, atoiDigits]
    | cons b bs => simp at hlen
  | cons a as ih =>
    intro db hlen hda hdb
    cases db with
    | nil => simp at hlen
    | cons b bs =>
      have hlen' : as.length = bs.length := by simpa using hlen
      have ha : a.isDigit = true := hda a (List.mem_cons_self a as)
      have hb : b.isDigit = true := hdb b (List.mem_cons_self b bs)
      have has : ∀ d ∈ as, d.isDigit = true := fun d h => hda d (List.mem_cons_of_mem a h)
      have hbs : ∀ d ∈ bs, d.isDigit = true := fun d h => hdb d (List.mem_cons_of_mem b h)
      have hra := (isDigit_iff_toNat a).mp ha
      have hrb := (isDigit_iff_toNat b).mp hb
      have hva := atoiDigits_lt as has
      have hvb := atoiDigits_lt bs hbs
      have hih := ih bs hlen' has hbs
      rw [hlen'] at hva
      simp only [chars_lt, atoiDigits, ha, hb, if_true]
      rw [atoiDigits_acc as _ has, atoiDigits_acc bs _ hbs, hlen']
      generalize 10 ^ bs.length = P at hva hvb ⊢
      generalize atoiDigits 0 as = va at hva hih ⊢
      generalize atoiDigits 0 bs = vb at hvb hih ⊢
      by_cases h1 : a.toNat < b.toNat
      · rw [if_pos h1]
        have hmul : (0 * 10 + (a.toNat - 48) + 1) * P ≤ (0 * 10 + (b.toNat - 48)) * P :=
          Nat.mul_le_mul_right _ (by omega)
        rw [Nat.add_mul] at hmul
        simp only [true_iff]
        omega
      · rw [if_neg h1]
        by_cases h2 : b.toNat < a.toNat
        · rw [if_pos h2]
          have hmul : (0 * 10 + (b.toNat - 48) + 1) * P ≤ (0 * 10 + (a.toNat - 48)) * P :=
            Nat.mul_le_mul_right _ (by omega)
          rw [Nat.add_mul] at hmul
          simp only [Bool.false_eq_true, false_iff]
          omega
        · rw [if_neg h2]
          have heq : a.toNat = b.toNat := by omega
          rw [heq, hih]
          omega

/-- A name the filter accepts is a head of six characters, five digits and a tail
of four characters; the five digits are what `frame_number` reads. -/
theorem is_valid_parts (name : String) (h : is_valid name = true) :
    ∃ digits, name.toList = name.toList.take 6 ++ digits ++ name.toList.drop 11 ∧
      (name.toList.take 6).length = 6 ∧ digits.length = 5 ∧
      (∀ d ∈ digits, d.isDigit = true) ∧ frame_number name = atoiDigits 0 digits := by
  obtain ⟨p, digits, t, hs, hp, hlen, hdig, -⟩ := (is_valid_iff name).mp h
  have hpl : p.length = 6 := by
    have hl := congrArg List.length hp
    simpa using hl
  have htake : name.toList.take 6 = p := by
    rw [hs, List.append_assoc]
    exact List.take_left' hpl
  have hdrop : name.toList.drop 11 = t := by
    rw [hs]
    exact List.drop_left' (by simp [hpl, hlen])
  have hmid : (name.toList.drop 6).take 5 = digits := by
    rw [hs, List.append_assoc, List.drop_left' hpl]
    exact List.take_left' hlen
  refine ⟨digits, ?_, ?_, hlen, hdig, ?_⟩
  · rw [htake, hdrop]
    exact hs
  · rw [htake]
    exact hpl
  · unfold frame_number
    rw [hmid]

/-- Claim C14. For a directory that is found, the frame sequence the constructor
stores ascends in the order of strings and is a rearrangement of the listed
names that the filter accepts; the filter accepts exactly the names that,
compared without regard to case, consist of `sflow_`, five decimal digits and
`.xml`; so a name is in the sequence exactly when it is listed and of that
form. -/
theorem construct_frame_sequence (U : FileUtilities) (initial_index : Nat)
    (directory : String) (hdir : U.file_exists directory = (true, true)) :
    List.Sorted string_le
      (SRSFMockSceneFlowAlgorithm.construct U initial_index directory).m_scene_flow_file_names ∧
    List.Perm
      (SRSFMockSceneFlowAlgorithm.construct U initial_index directory).m_scene_flow_file_names
      ((U.entries directory).filter is_valid) ∧
    (∀ name, is_valid name = true ↔ IsFrameFileName name) ∧
    (∀ name,
      name ∈ (SRSFMockSceneFlowAlgorithm.construct U initial_index
          directory).m_scene_flow_file_names ↔
        name ∈ U.entries directory ∧ IsFrameFileName name) := by
  have hnames :
      (SRSFMockSceneFlowAlgorithm.construct U initial_index directory).m_scene_flow_file_names
        = std_sort ((U.entries directory).filter is_valid) := by
    simp [SRSFMockSceneFlowAlgorithm.construct, hdir, FileUtilities.files_in_directory]
  rw [hnames]
  obtain ⟨hsorted, hperm⟩ := std_sort_sorted_perm ((U.entries directory).filter is_valid)
  refine ⟨hsorted, hperm, is_valid_iff, fun name => ?_⟩
  rw [hperm.mem_iff, List.mem_filter, is_valid_iff]

/-- Claim C14 at a directory with six entries: the two frame files are stored, in
ascending order, and the names with another number of digits, with something in
front or with something behind are not. -/
theorem construct_frame_sequence_witness :
    (SRSFMockSceneFlowAlgorithm.construct sampleDirectory 5 "d").m_scene_flow_file_names
      = ["SFLOW_00001.XML", "sflow_00002.xml"] ∧
    List.Sorted string_le
      (SRSFMockSceneFlowAlgorithm.construct sampleDirectory 5 "d").m_scene_flow_file_names ∧
    (∀ name,
      name ∈ (SRSFMockSceneFlowAlgorithm.construct sampleDirectory 5
          "d").m_scene_flow_file_names ↔
        name ∈ sampleDirectory.entries "d" ∧ IsFrameFileName name) :=
  ⟨by decide, (construct_frame_sequence sampleDirectory 5 "d" rfl).1,
    (construct_frame_sequence sampleDirectory 5 "d" rfl).2.2.2⟩

/-- Claim C15 fails as stated: the filter accepts `SFLOW_00002.xml` and
`sflow_00001.xml`, the first is before the second as a string, an upper case
letter being before a lower case one, and its frame number 2 is not below 1;
the constructor stores them in this order. -/
theorem string_lt_against_frame_number :
    is_valid "SFLOW_00002.xml" = true ∧ is_valid "sflow_00001.xml" = true ∧
    string_lt "SFLOW_00002.xml" "sflow_00001.xml" = true ∧
    ¬ (frame_number "SFLOW_00002.xml" < frame_number "sflow_00001.xml") ∧
    (SRSFMockSceneFlowAlgorithm.construct mixedCaseDirectory 0 "d").m_scene_flow_file_names
      = ["SFLOW_00002.xml", "sflow_00001.xml"] := by
  decide

/-- Claim C15, amended. For two names the filter accepts that agree in their first
six characters and in the characters behind the digits, so that they spell
`sflow_` and `.xml` in the same case: the first is before the second in the
order of the sort exactly when its frame number is the smaller one. -/
theorem string_lt_iff_frame_number (a b : String) (ha : is_valid a = true)
    (hb : is_valid b = true) (hhead : a.toList.take 6 = b.toList.take 6)
    (htail : a.toList.drop 11 = b.toList.drop 11) :
    string_lt a b = true ↔ frame_number a < frame_number b := by
  obtain ⟨da, hsa, hla, hda5, hda, hna⟩ := is_valid_parts a ha
  obtain ⟨db, hsb, -, hdb5, hdb, hnb⟩ := is_valid_parts b hb
  unfold string_lt
  rw [hna, hnb, hsa, hsb, ← hhead, ← htail,
    chars_lt_append_right _ _ _ (by simp [hda5, hdb5]), chars_lt_append_left]
  exact chars_lt_digits da db (by rw [hda5, hdb5]) hda hdb

/-- Claim C15, amended, at the names `sflow_00001.xml` and `sflow_00010.xml`. -/
theorem string_lt_iff_frame_number_witness :
    string_lt "sflow_00001.xml" "sflow_00010.xml" = true ↔
      frame_number "sflow_00001.xml" < frame_number "sflow_00010.xml" :=
  string_lt_iff_frame_number "sflow_00001.xml" "sflow_00010.xml" (by decide) (by decide)
    (by decide) (by decide)

/-! ## A reader over a directory that is not found -/

/-- Claim C16. For a path that does not exist or is no directory, the constructed
reader has an empty frame sequence, whatever value its cursor holds; any
number of calls of `compute_scene_flow` on it return with the reader, so the
cursor, and the translation, rotation and residuals of the caller as they
were. -/
theorem construct_disabled_reader {F : Type} (M : FloatModel F)
    (fs : String → Option TiXmlDocument) (U : FileUtilities) (initial_index : Nat)
    (path : String) (translation rotation : Vector3f F) (residuals : ResidualMatrix F)
    (hpath : (U.file_exists path).1 = false ∨ (U.file_exists path).2 = false) :
    (SRSFMockSceneFlowAlgorithm.construct U initial_index path).m_scene_flow_file_names = [] ∧
    ∀ n, compute_scene_flow_n M fs n
        { self := SRSFMockSceneFlowAlgorithm.construct U initial_index path,
          translation := translation, rotation := rotation, residuals := residuals }
      = some
        { self := SRSFMockSceneFlowAlgorithm.construct U initial_index path,
          translation := translation, rotation := rotation, residuals := residuals } := by
  have hcond : ((U.file_exists path).1 && (U.file_exists path).2) = false := by
    rcases hpath with h | h <;> simp [h]
  have hnames :
      (SRSFMockSceneFlowAlgorithm.construct U initial_index path).m_scene_flow_file_names
        = [] := by
    simp [SRSFMockSceneFlowAlgorithm.construct, hcond]
  refine ⟨hnames, fun n => ?_⟩
  induction n with
  | zero => rfl
  | succ n ih =>
    simp only [compute_scene_flow_n, ih, Option.some_bind]
    exact compute_scene_flow_of_end M fs _ (by simp [hnames])

/-- Claim C16 at the path `e`, which is not found in `sampleDirectory`, with the
cursor holding 5. -/
theorem construct_disabled_reader_witness :
    (SRSFMockSceneFlowAlgorithm.construct sampleDirectory 5 "e").m_scene_flow_file_names
      = [] ∧
    ∀ n, compute_scene_flow_n textFloats (oneFile "d/sflow_00000.xml" goodRecord) n
        { self := SRSFMockSceneFlowAlgorithm.construct sampleDirectory 5 "e",
          translation := vec3 "7" "7" "7", rotation := vec3 "7" "7" "7", residuals := [] }
      = some
        { self := SRSFMockSceneFlowAlgorithm.construct sampleDirectory 5 "e",
          translation := vec3 "7" "7" "7", rotation := vec3 "7" "7" "7", residuals := [] } :=
  construct_disabled_reader textFloats (oneFile "d/sflow_00000.xml" goodRecord)
    sampleDirectory 5 "e" (vec3 "7" "7" "7") (vec3 "7" "7" "7") [] (Or.inl (by decide))

end SRSFMock
